import Mathlib

set_option maxHeartbeats 1000000
set_option maxRecDepth 100000

/-!
Shallow embedding of `materials_io/electron_microscopy.py`
(`ElectronMicroscopyParser._parse_file` together with the helper methods it
calls).  Python values are modelled by `PyVal`; Python floats are modelled as
exact rationals (`ℚ`), Python exceptions by `Except PyErr`.  The generic
helpers `get_nested_dict_value_by_path`, `map_dict_values`, `MappingElements`
and `set_nested_dict_value_with_units` are imported by the source from
`materials_io.utils`, a module that is not part of the sources; those
definitions are modelled from the spec (sections 4.1 and 4.2) and are marked
`Modelled from the spec:` below.
-/

/-- A Python value as it occurs in the metadata trees handled by the parser:
`None`, booleans, ints, floats (modelled as exact rationals), strings, lists
and (insertion-ordered) string-keyed dicts. -/
inductive PyVal where
  | none : PyVal
  | bool : Bool → PyVal
  | int : Int → PyVal
  | float : ℚ → PyVal
  | str : String → PyVal
  | list : List PyVal → PyVal
  | dict : List (String × PyVal) → PyVal
  deriving Repr

/-- A Python dict with string keys, in insertion order (the shape of
`self.em`, `self.raw_meta`, `self.meta`, ...). -/
abbrev Em := List (String × PyVal)

/-- Dict lookup (`d[k]` when the key is present; first matching entry —
entries built by `setKey` have unique keys, like a Python dict). -/
def lookupD : Em → String → Option PyVal
  | [], _ => Option.none
  | (k', v) :: rest, k => if k' = k then some v else lookupD rest k

/-- Python dict assignment `d[k] = v`: update the existing entry in place
(keeping its position, as CPython does) or append a new entry. -/
def setKey : Em → String → PyVal → Em
  | [], k, v => [(k, v)]
  | (k', w) :: rest, k, v =>
    if k' = k then (k, v) :: rest else (k', w) :: setKey rest k v

/-- All entries of a dict carrying the given key (at most one for dicts built
by `setKey`); used to state key-preservation invariants. -/
def keyEntries (k : String) (d : Em) : Em :=
  d.filter (fun kv => kv.1 = k)

/-- Plain nested indexing `v[k1][k2]...`: `Option.none` means the chain would
raise in Python (missing key, or indexing a non-dict). -/
def getPathD : PyVal → List String → Option PyVal
  | v, [] => some v
  | .dict kvs, k :: rest =>
    match lookupD kvs k with
    | some w => getPathD w rest
    | Option.none => Option.none
  | _, _ :: _ => Option.none

/-- The emptiness test of the final pruning loop in `_parse_file`
(`val is None or val == [] or val == {}`). -/
def isEmptyVal : PyVal → Bool
  | PyVal.none => true
  | .list [] => true
  | .dict [] => true
  | _ => false

/-- The pruning loop of `_parse_file`: iterate over the top-level items of
`self.em` and pop every key whose value is `None`, `[]` or `{}`. -/
def pruneTop (em : Em) : Em :=
  em.filter (fun kv => !isEmptyVal kv.2)

/-! ## Text utilities (modelling `str.split`, `in`, `re.sub("^...")`, and the
concrete regular expressions used by `_dm3_tecnai_info`) -/

/-- Is the first list a prefix of the second (Boolean)? -/
def isPreL : List Char → List Char → Bool
  | [], _ => true
  | _ :: _, [] => false
  | a :: as, b :: bs => a = b && isPreL as bs

/-- First index at which `pat` occurs as a contiguous sublist of `cs`. -/
def findSub (pat : List Char) : List Char → Option Nat
  | [] => if isPreL pat [] then some 0 else Option.none
  | c :: rest =>
    if isPreL pat (c :: rest) then some 0 else (findSub pat rest).map (· + 1)

/-- Last index at which `pat` occurs as a contiguous sublist of `cs`. -/
def findSubLast (pat : List Char) : List Char → Option Nat
  | [] => if isPreL pat [] then some 0 else Option.none
  | c :: rest =>
    match findSubLast pat rest with
    | some i => some (i + 1)
    | Option.none => if isPreL pat (c :: rest) then some 0 else Option.none

/-- Python `pat in s` (substring containment). -/
def strContains (s pat : String) : Bool :=
  (findSub pat.data s.data).isSome

/-- Python `s.split(d)` for a one-character separator `d`. -/
def splitOnC (d : Char) : List Char → List (List Char)
  | [] => [[]]
  | c :: rest =>
    if c = d then [] :: splitOnC d rest
    else
      match splitOnC d rest with
      | h :: t => (c :: h) :: t
      | [] => [[c]]

/-- Python `s.split(delim)` for the one-character Tecnai delimiter. -/
def pySplit (s : String) (d : Char) : List String :=
  (splitOnC d s.data).map String.mk

/-- `re.sub("^" + pre, "", s)` for a literal `pre` (all searched-for Tecnai
markers contain no regex metacharacters): strip `pre` from the start of `s`
if `s` starts with it, else leave `s` unchanged. -/
def stripStart (pre s : String) : String :=
  if isPreL pre.data s.data then String.mk (s.data.drop pre.data.length) else s

/-- `__find_val(s_to_find, list_to_search)` from `_dm3_tecnai_info`: the first
line that contains `pre`, with `pre` stripped from its start; `Option.none`
if no line contains it. -/
def findVal (pre : String) (lines : List String) : Option String :=
  match lines.filter (fun x => strContains x pre) with
  | [] => Option.none
  | res :: _ => some (stripStart pre res)

/-- Replace every (non-overlapping, left-to-right) occurrence of `pat` by
nothing — Python `s.replace(pat, "")`; used by the `Aperture label` cast
`lambda s: float(s.replace(' mm', ''))`. -/
def removeSub (pat : List Char) : List Char → List Char
  | [] => []
  | c :: rest =>
    if isPreL pat (c :: rest) ∧ pat ≠ [] then
      removeSub pat ((c :: rest).drop pat.length)
    else c :: removeSub pat rest
termination_by cs => cs.length
decreasing_by
  · rename_i h
    have hp : 0 < pat.length := by
      cases pat with
      | nil => exact absurd rfl h.2
      | cons a as => simp
    simp [List.length_drop]
    omega
  · simp

/-- Greedy run-then-literal matcher at a fixed position: take the maximal run
of characters satisfying `cls`, then require `post` to follow immediately.
This is the behaviour of Python `re` for `(C*)post` at a fixed start position
whenever the first character of `post` is not in the class `C` (true of every
such pattern in the source: `(\d*) V`, `([\d|\.]*)uA`, `([\d|\.]*) CL`,
`(\d*)x`, `(\d*)mm`), since greedy backtracking can then stop only at the end
of the run. -/
def matchRunAt (cls : Char → Bool) (post : List Char) (cs : List Char) :
    Option (List Char) :=
  let run := cs.takeWhile cls
  if isPreL post (cs.drop run.length) then some run else Option.none

/-- `re.search` for a pattern `pre(C*)post` (with `post`'s first character not
in `C`, and `post ≠ []`): try every start position from the left, returning
the first capture. -/
def searchRunL (pre : List Char) (cls : Char → Bool) (post : List Char) :
    List Char → Option (List Char)
  | [] => Option.none
  | c :: rest =>
    if isPreL pre (c :: rest) then
      match matchRunAt cls post ((c :: rest).drop pre.length) with
      | some run => some run
      | Option.none => searchRunL pre cls post rest
    else searchRunL pre cls post rest

/-- `re.search` for a pattern `pre(.*)post` (greedy `.*`, strings contain no
newline): the match starts at the first occurrence of `pre` and the capture
extends to the last occurrence of `post` after it.  If no `post` follows the
first `pre` then none follows any later `pre` either, so the search fails. -/
def searchDotStarL (pre post cs : List Char) : Option (List Char) :=
  match findSub pre cs with
  | Option.none => Option.none
  | some i =>
    let suf := cs.drop (i + pre.length)
    match findSubLast post suf with
    | Option.none => Option.none
    | some j => some (suf.take j)

/-- Character class `\d`. -/
def digitCls (c : Char) : Bool := c.isDigit

/-- Character class `[\d|\.]` (digits, `|`, `.`). -/
def numCls (c : Char) : Bool := c.isDigit || c = '|' || c = '.'

/-- `re.search(r"Extr volt (\d*) V", s)`, first capture group. -/
def reExtrVolt (s : String) : Option String :=
  (searchRunL "Extr volt ".data digitCls " V".data s.data).map String.mk

/-- `re.search(r"Emission ([\d|\.]*)uA", s)`, first capture group. -/
def reEmission (s : String) : Option String :=
  (searchRunL "Emission ".data numCls "uA".data s.data).map String.mk

/-- `re.search(r"(.*) Defocus", s)`, first capture group. -/
def reOpMode (s : String) : Option String :=
  (searchDotStarL [] " Defocus".data s.data).map String.mk

/-- `re.search(r"Defocus \(um\) (.*) Magn", s)`, first capture group. -/
def reDefocusUm (s : String) : Option String :=
  (searchDotStarL "Defocus (um) ".data " Magn".data s.data).map String.mk

/-- `re.search(r"Defocus ([\d|\.]*) CL", s)`, first capture group. -/
def reDefocusCL (s : String) : Option String :=
  (searchRunL "Defocus ".data numCls " CL".data s.data).map String.mk

/-- `re.search(r"Magn (\d*)x", s)`, first capture group. -/
def reMagn (s : String) : Option String :=
  (searchRunL "Magn ".data digitCls "x".data s.data).map String.mk

/-- `re.search(r"CL (.*)m", s)`, first capture group. -/
def reCLm (s : String) : Option String :=
  (searchDotStarL "CL ".data "m".data s.data).map String.mk

/-- `re.search(r"(.*)\[eV/Channel\]", s)`, first capture group. -/
def reDispersion (s : String) : Option String :=
  (searchDotStarL [] "[eV/Channel]".data s.data).map String.mk

/-- `re.search(r"(\d*)mm", s)`, first capture group. -/
def reApertureMm (s : String) : Option String :=
  (searchRunL [] digitCls "mm".data s.data).map String.mk

/-- `re.search(r"(.*)\[eV\]", s)`, first capture group. -/
def reEV (s : String) : Option String :=
  (searchDotStarL [] "[eV]".data s.data).map String.mk

/-- One attempted match of ` (-?\d*\.\d*) unit` at a fixed position: a space,
an optional minus sign, a (possibly empty) digit run, a dot, a digit run, a
space, then the literal `unit`.  Returns the capture and the total number of
characters consumed.  (Each sub-pattern is followed by a character it cannot
itself match, so Python's greedy matching is deterministic here.) -/
def stageNumAt (unit : List Char) (cs : List Char) : Option (String × Nat) :=
  match cs with
  | ' ' :: cs1 =>
    let neg : Bool := match cs1 with | '-' :: _ => true | _ => false
    let cs2 := if neg then cs1.drop 1 else cs1
    let d1 := cs2.takeWhile Char.isDigit
    let cs3 := cs2.drop d1.length
    match cs3 with
    | '.' :: cs4 =>
      let d2 := cs4.takeWhile Char.isDigit
      let cs5 := cs4.drop d2.length
      match cs5 with
      | ' ' :: cs6 =>
        if isPreL unit cs6 then
          some (String.mk ((if neg then ['-'] else []) ++ d1 ++ '.' :: d2),
                1 + (if neg then 1 else 0) + d1.length + 1 + d2.length + 1 +
                  unit.length)
        else Option.none
      | _ => Option.none
    | _ => Option.none
  | _ => Option.none

/-- `re.findall(r" (-?\d*\.\d*) unit", s)`: scan left to right; on a match,
collect the capture and continue after the matched text; otherwise advance
one character. -/
def findAllNum (unit : List Char) : List Char → List String
  | [] => []
  | c :: rest =>
    match stageNumAt unit (c :: rest) with
    | some (g, n) => g :: findAllNum unit (rest.drop (n - 1))
    | Option.none => findAllNum unit rest
termination_by cs => cs.length
decreasing_by
  · simp [List.length_drop]; omega
  · simp

/-! ## Python scalar conversions (`float`, `int`, `str`, `bool`, `list`) -/

/-- Numeric value of a (non-empty) digit run. -/
def natOfDigits (ds : List Char) : Nat :=
  ds.foldl (fun a c => a * 10 + (c.toNat - 48)) 0

/-- Strip leading and trailing whitespace (Python `str.strip()` as performed
by `float()` / `int()` on their string argument). -/
def trimWs (cs : List Char) : List Char :=
  ((cs.dropWhile Char.isWhitespace).reverse.dropWhile Char.isWhitespace).reverse

/-- Optional sign: returns (negative?, rest). -/
def parseSign : List Char → Bool × List Char
  | '-' :: cs => (true, cs)
  | '+' :: cs => (false, cs)
  | cs => (false, cs)

/-- Parse the (already stripped) text accepted by Python `float()` as a
numeric literal: `[sign] digits [. digits] [e/E [sign] digits]`, with at
least one digit in the mantissa.  (The special spellings `inf`/`infinity`/
`nan`, and underscores in digit runs, are not modelled: no metadata field in
the source ever carries them.)  The result is the exact rational value. -/
def parsePyFloatCore (cs0 : List Char) : Option ℚ :=
  let (neg, cs1) := parseSign cs0
  let d1 := cs1.takeWhile Char.isDigit
  let cs2 := cs1.drop d1.length
  let hasDot : Bool := match cs2 with | '.' :: _ => true | _ => false
  let cs2' := if hasDot then cs2.drop 1 else cs2
  let d2 := if hasDot then cs2'.takeWhile Char.isDigit else []
  let cs3 := if hasDot then cs2'.drop d2.length else cs2
  if d1.isEmpty && d2.isEmpty then Option.none
  else
    let m : ℕ := natOfDigits (d1 ++ d2)
    let sm : ℤ := if neg then -(m : ℤ) else (m : ℤ)
    match cs3 with
    | [] => some (mkRat sm ((10 : ℕ) ^ d2.length))
    | e :: cs4 =>
      if e = 'e' ∨ e = 'E' then
        let (eneg, cs5) := parseSign cs4
        let ed := cs5.takeWhile Char.isDigit
        let cs6 := cs5.drop ed.length
        if ed.isEmpty || !cs6.isEmpty then Option.none
        else if eneg then some (mkRat sm ((10 : ℕ) ^ (d2.length + natOfDigits ed)))
        else some (mkRat (sm * (((10 : ℕ) ^ natOfDigits ed : ℕ) : ℤ)) ((10 : ℕ) ^ d2.length))
      else Option.none

/-- Python `float(s)` on a string. -/
def pyFloatOfString (s : String) : Option ℚ :=
  parsePyFloatCore (trimWs s.data)

/-- Python `int(s)` on a string: optional sign and a non-empty digit run,
nothing else (after stripping whitespace). -/
def pyIntOfString (s : String) : Option ℤ :=
  let cs := trimWs s.data
  let (neg, cs1) := parseSign cs
  let d := cs1.takeWhile Char.isDigit
  if d.isEmpty || !(cs1.drop d.length).isEmpty then Option.none
  else some (if neg then -(natOfDigits d : ℤ) else (natOfDigits d : ℤ))

/-- Boolean `a >= b` on rationals (via the executable strict comparison):
models the Python comparison `voltage >= 1000`. -/
def ratGe (a b : ℚ) : Bool := !Rat.blt a b

/-- Truncation of a rational toward zero — Python `int()` on a float. -/
def ratTrunc (q : ℚ) : ℤ :=
  if q.num < 0 then -((q.num.natAbs / q.den : ℕ) : ℤ) else ((q.num.natAbs / q.den : ℕ) : ℤ)

/-- Python `float(v)`: succeeds on numbers, booleans and numeric strings,
raises (here: `Option.none`) on `None`, lists and dicts. -/
def pyFloat : PyVal → Option ℚ
  | .float q => some q
  | .int n => some (n : ℚ)
  | .bool b => some (if b then 1 else 0)
  | .str s => pyFloatOfString s
  | _ => Option.none

/-- Python `int(v)`: ints pass through, floats truncate toward zero, strings
must be integer literals; anything else raises. -/
def pyInt : PyVal → Option ℤ
  | .int n => some n
  | .float q => some (ratTrunc q)
  | .bool b => some (if b then 1 else 0)
  | .str s => pyIntOfString s
  | _ => Option.none

/-- Python `str(v)`.  Scalars are rendered faithfully; for floats, lists and
dicts the exact CPython rendering is not reproduced (no mapping rule in the
source applies `str` to such a value on any input exercised below — the
`cast_fn=str` rules all read string-valued tags). -/
def pyStr : PyVal → String
  | PyVal.none => "None"
  | .bool b => if b then "True" else "False"
  | .int n => toString n
  | .float q => toString q.num ++ (if q.den = 1 then ".0" else "e" ++ toString q.den)
  | .str s => s
  | .list _ => "<list>"
  | .dict _ => "<dict>"

/-- Python truthiness (`bool(v)` / `if v:`). -/
def pyTruthy : PyVal → Bool
  | PyVal.none => false
  | .bool b => b
  | .int n => decide (n ≠ 0)
  | .float q => decide (q ≠ 0)
  | .str s => !s.isEmpty
  | .list xs => !xs.isEmpty
  | .dict kvs => !kvs.isEmpty

/-- Python `list(v)`: copies a list, turns a string into its one-character
strings, a dict into its key list; raises on scalars and `None`. -/
def pyListCast : PyVal → Option PyVal
  | .list xs => some (.list xs)
  | .str s => some (.list (s.data.map (fun c => PyVal.str (String.mk [c]))))
  | .dict kvs => some (.list (kvs.map (fun kv => PyVal.str kv.1)))
  | _ => Option.none

/-! ## The attribute-mapping engine.

`MappingElements`, `get_nested_dict_value_by_path`, `map_dict_values` and
`set_nested_dict_value_with_units` are imported from `materials_io.utils`,
which is not among the sources; they are modelled from the spec, sections 4.1
(PathAccessor) and 4.2 (MappingRule / MappingEngine). -/

/-- The Python exceptions that can escape `_parse_file`. -/
inductive PyErr where
  | typeError : PyErr
  | valueError : PyErr
  | attributeError : PyErr
  deriving Repr, DecidableEq

/-- The cast functions (`cast_fn`) used by the mapping rules of the source:
`float`, `str`, `int`, `list`, `bool`, and the `Aperture label` lambda
`lambda s: float(s.replace(' mm', ''))`. -/
inductive CastFn where
  | toFloat : CastFn
  | toStr : CastFn
  | toInt : CastFn
  | toList : CastFn
  | toBool : CastFn
  | apertureMm : CastFn

/-- The post-cast conversion lambdas (`conv_fn`) used by the source:
`lambda x: x / 1000`, `lambda x: x * 1000`, and the identity branch of the
voltage lambda `lambda x: x / 1000 if voltage >= 1000 else x` (the branch is
fixed when the rule is built, since `voltage` is captured). -/
inductive ConvFn where
  | div1000 : ConvFn
  | mul1000 : ConvFn
  | idConv : ConvFn

/-- Apply a cast function; `Option.none` models the cast raising. -/
def applyCast : CastFn → PyVal → Option PyVal
  | .toFloat, v => (pyFloat v).map PyVal.float
  | .toStr, v => some (.str (pyStr v))
  | .toInt, v => (pyInt v).map PyVal.int
  | .toList, v => pyListCast v
  | .toBool, v => some (.bool (pyTruthy v))
  | .apertureMm, .str s => (pyFloatOfString (String.mk (removeSub " mm".data s.data))).map PyVal.float
  | .apertureMm, _ => Option.none

/-- Apply a conversion lambda.  On a float this is exact rational arithmetic
(`x / 1000` and `x * 1000`); an int under `/ 1000` becomes a float (Python 3
true division).  In the source a conversion always follows a `float` cast, so
the other cases are unreachable; a failure is treated as a skipped rule. -/
def applyConvFn : ConvFn → PyVal → Option PyVal
  | .div1000, .float q => some (.float (mkRat q.num (q.den * 1000)))
  | .div1000, .int n => some (.float (mkRat n 1000))
  | .mul1000, .float q => some (.float (mkRat (q.num * 1000) q.den))
  | .mul1000, .int n => some (.int (n * 1000))
  | .idConv, v => some v
  | _, _ => Option.none

/-- Apply an optional conversion. -/
def applyConv : Option ConvFn → PyVal → Option PyVal
  | Option.none, v => some v
  | some f, v => applyConvFn f v

/-- Modelled from the spec: the `MappingElements` record of
`materials_io.utils` as constructed at every call site of the source —
source tree, source path, destination path (the destination tree is always
`self.em` and is supplied to `applyRule`), a cast function, an optional unit
code, an optional conversion function and the override flag.  A bare-string
`source_path` of the source corresponds to a one-element path. -/
structure MappingElements where
  source_dict : PyVal
  source_path : List String
  dest_path : List String
  cast_fn : CastFn
  units : Option String
  conv_fn : Option ConvFn
  override : Bool

/-- Modelled from the spec: `get_nested_dict_value_by_path` (PathAccessor
`get`, spec 4.1): walk the tree one key at a time; an absent key, a
non-mapping intermediate value, or a stored `None` all yield "not found"
(`None`), never an error. -/
def pyGet (v : PyVal) (path : List String) : Option PyVal :=
  match getPathD v path with
  | some PyVal.none => Option.none
  | r => r

/-- Wrap a value as `{"value": v, "unit": u}` when the rule declares a unit,
else the bare value (spec 4.1, `set` / ValueWithUnit). -/
def wrapUnit (v : PyVal) : Option String → PyVal
  | Option.none => v
  | some u => .dict [("value", v), ("unit", .str u)]

/-- Modelled from the spec: `set_nested_dict_value_with_units` (PathAccessor
`set`, spec 4.1): create intermediate mappings along the path as needed;
do not overwrite an already-present non-empty leaf unless the override flag
is set.  Traversal never raises: a non-mapping intermediate value leaves the
tree unchanged. -/
def setPathD : Em → List String → PyVal → Bool → Em
  | d, [], _, _ => d
  | d, [k], v, ov =>
    match lookupD d k with
    | Option.none => setKey d k v
    | some old => if ov || isEmptyVal old then setKey d k v else d
  | d, k :: k2 :: rest, v, ov =>
    match lookupD d k with
    | some (.dict sub) => setKey d k (.dict (setPathD sub (k2 :: rest) v ov))
    | some _ => d
    | Option.none => setKey d k (.dict (setPathD [] (k2 :: rest) v ov))

/-- Modelled from the spec: one step of `map_dict_values` (MappingEngine
`apply`, spec 4.2): read the source value (skip when not found), cast (skip
when the cast raises), convert, then write to the destination path with the
rule's unit and override flag. -/
def applyRule (em : Em) (r : MappingElements) : Em :=
  match pyGet r.source_dict r.source_path with
  | Option.none => em
  | some v =>
    match applyCast r.cast_fn v with
    | Option.none => em
    | some cv =>
      match applyConv r.conv_fn cv with
      | Option.none => em
      | some fv => setPathD em r.dest_path (wrapUnit fv r.units) r.override

/-- Modelled from the spec: `map_dict_values` — apply an ordered rule list to
the destination tree. -/
def applyRules (rs : List MappingElements) (em : Em) : Em :=
  rs.foldl applyRule em

/-- `__extract_val(regex, str_to_search)` from `_dm3_tecnai_info`, applied —
as at every call site — to the result of `__find_val`: when the line was not
found the argument is `None` and `re.compile(regex).search(None)` raises
`TypeError`; otherwise the first capture group of the search (or `None` when
the pattern does not match). -/
def extractVal (search : String → Option String) :
    Option String → Except PyErr (Option String)
  | Option.none => .error .typeError
  | some s => .ok (search s)

/-- Lift an optional string into a Python value (`None` / the string), for
the single-use source dicts built by `_dm3_tecnai_info`. -/
def strOptVal : Option String → PyVal
  | Option.none => PyVal.none
  | some s => .str s

/-! ## `_process_hs_data` / `_process_hs_detectors` -/

/-- The instrument-level rule list of `_process_hs_data` (built when
`self.inst_data` is not `None`; `source` is `self.inst_data`, `dest` is
`self.em`). -/
def hsInstrumentRules (source : PyVal) : List MappingElements :=
  [ { source_dict := source, source_path := ["acquisition_mode"],
      dest_path := ["General_EM", "acquisition_mode"], cast_fn := .toStr,
      units := Option.none, conv_fn := Option.none, override := false },
    { source_dict := source, source_path := ["beam_current"],
      dest_path := ["General_EM", "beam_current"], cast_fn := .toFloat,
      units := some "NanoA", conv_fn := Option.none, override := false },
    { source_dict := source, source_path := ["beam_energy"],
      dest_path := ["General_EM", "beam_energy"], cast_fn := .toFloat,
      units := some "KiloEV", conv_fn := Option.none, override := false },
    { source_dict := source, source_path := ["convergence_angle"],
      dest_path := ["General_EM", "convergence_angle"], cast_fn := .toFloat,
      units := some "MilliRAD", conv_fn := Option.none, override := false },
    { source_dict := source, source_path := ["magnification"],
      dest_path := ["General_EM", "magnification_indicated"],
      cast_fn := .toFloat, units := some "UNITLESS", conv_fn := Option.none,
      override := false },
    { source_dict := source, source_path := ["microscope"],
      dest_path := ["General_EM", "microscope_name"], cast_fn := .toStr,
      units := Option.none, conv_fn := Option.none, override := false },
    { source_dict := source, source_path := ["probe_area"],
      dest_path := ["General_EM", "probe_area"], cast_fn := .toFloat,
      units := some "NanoM2", conv_fn := Option.none, override := false },
    { source_dict := source, source_path := ["Stage", "rotation"],
      dest_path := ["General_EM", "stage_position", "rotation"],
      cast_fn := .toFloat, units := some "DEG", conv_fn := Option.none,
      override := false },
    { source_dict := source, source_path := ["Stage", "tilt_alpha"],
      dest_path := ["General_EM", "stage_position", "tilt_alpha"],
      cast_fn := .toFloat, units := some "DEG", conv_fn := Option.none,
      override := false },
    { source_dict := source, source_path := ["Stage", "tilt_beta"],
      dest_path := ["General_EM", "stage_position", "tilt_beta"],
      cast_fn := .toFloat, units := some "DEG", conv_fn := Option.none,
      override := false },
    { source_dict := source, source_path := ["Stage", "x"],
      dest_path := ["General_EM", "stage_position", "x"], cast_fn := .toFloat,
      units := some "MilliM", conv_fn := Option.none, override := false },
    { source_dict := source, source_path := ["Stage", "y"],
      dest_path := ["General_EM", "stage_position", "y"], cast_fn := .toFloat,
      units := some "MilliM", conv_fn := Option.none, override := false },
    { source_dict := source, source_path := ["Stage", "z"],
      dest_path := ["General_EM", "stage_position", "z"], cast_fn := .toFloat,
      units := some "MilliM", conv_fn := Option.none, override := false },
    { source_dict := source, source_path := ["camera_length"],
      dest_path := ["TEM", "camera_length"], cast_fn := .toFloat,
      units := some "MilliM", conv_fn := Option.none, override := false },
    { source_dict := source, source_path := ["working_distance"],
      dest_path := ["SEM", "working_distance"], cast_fn := .toFloat,
      units := some "MilliM", conv_fn := Option.none, override := false } ]

/-- The detector sub-rules of `_process_hs_detectors`, added only when the
`Detector` node exists under the instrument data. -/
def hsDetectorNodeRules (detector_node : PyVal) : List MappingElements :=
  [ { source_dict := detector_node, source_path := ["EDS", "azimuth_angle"],
      dest_path := ["EDS", "azimuth_angle"], cast_fn := .toFloat,
      units := some "DEG", conv_fn := Option.none, override := false },
    { source_dict := detector_node, source_path := ["EDS", "elevation_angle"],
      dest_path := ["EDS", "elevation_angle"], cast_fn := .toFloat,
      units := some "DEG", conv_fn := Option.none, override := false },
    { source_dict := detector_node,
      source_path := ["EDS", "energy_resolution_MnKa"],
      dest_path := ["EDS", "energy_resolution_MnKa"], cast_fn := .toFloat,
      units := some "EV", conv_fn := Option.none, override := false },
    { source_dict := detector_node, source_path := ["EDS", "live_time"],
      dest_path := ["EDS", "live_time"], cast_fn := .toFloat,
      units := some "SEC", conv_fn := Option.none, override := false },
    { source_dict := detector_node, source_path := ["EDS", "real_time"],
      dest_path := ["EDS", "real_time"], cast_fn := .toFloat,
      units := some "SEC", conv_fn := Option.none, override := false },
    { source_dict := detector_node, source_path := ["EELS", "aperture_size"],
      dest_path := ["EELS", "aperture_size"], cast_fn := .toFloat,
      units := some "MilliM", conv_fn := Option.none, override := false },
    { source_dict := detector_node,
      source_path := ["EELS", "collection_angle"],
      dest_path := ["EELS", "collection_angle"], cast_fn := .toFloat,
      units := some "MilliRAD", conv_fn := Option.none, override := false },
    { source_dict := detector_node, source_path := ["EELS", "dwell_time"],
      dest_path := ["General_EM", "dwell_time"], cast_fn := .toFloat,
      units := some "SEC", conv_fn := Option.none, override := false },
    { source_dict := detector_node, source_path := ["EELS", "exposure"],
      dest_path := ["General_EM", "exposure_time"], cast_fn := .toFloat,
      units := some "SEC", conv_fn := Option.none, override := false },
    { source_dict := detector_node, source_path := ["EELS", "frame_number"],
      dest_path := ["EELS", "number_of_samples"], cast_fn := .toInt,
      units := some "NUM", conv_fn := Option.none, override := false },
    { source_dict := detector_node, source_path := ["EELS", "spectrometer"],
      dest_path := ["EELS", "spectrometer_name"], cast_fn := .toStr,
      units := Option.none, conv_fn := Option.none, override := false } ]

/-- `_process_hs_detectors`: one rule reading `detector_type` from the
instrument data, plus the detector-node rules when that node exists. -/
def process_hs_detectors (inst_data : PyVal) (em : Em) : Em :=
  let detector_node := pyGet inst_data ["Detector"]
  let mapping :=
    [ { source_dict := inst_data, source_path := ["detector_type"],
        dest_path := ["General_EM", "detector_name"], cast_fn := CastFn.toStr,
        units := Option.none, conv_fn := Option.none, override := false } ] ++
    (match detector_node with
     | some dn => hsDetectorNodeRules dn
     | Option.none => [])
  applyRules mapping em

/-- The general (whole-`self.meta`) rule list of `_process_hs_data`. -/
def hsGeneralRules (meta : PyVal) : List MappingElements :=
  [ { source_dict := meta, source_path := ["Sample", "elements"],
      dest_path := ["General_EM", "elements"], cast_fn := .toList,
      units := Option.none, conv_fn := Option.none, override := false },
    { source_dict := meta, source_path := ["General", "date"],
      dest_path := ["General", "date"], cast_fn := .toStr,
      units := Option.none, conv_fn := Option.none, override := false },
    { source_dict := meta, source_path := ["General", "doi"],
      dest_path := ["General", "doi"], cast_fn := .toStr,
      units := Option.none, conv_fn := Option.none, override := false },
    { source_dict := meta, source_path := ["General", "original_filename"],
      dest_path := ["General", "original_filename"], cast_fn := .toStr,
      units := Option.none, conv_fn := Option.none, override := false },
    { source_dict := meta, source_path := ["General", "notes"],
      dest_path := ["General", "notes"], cast_fn := .toStr,
      units := Option.none, conv_fn := Option.none, override := false },
    { source_dict := meta, source_path := ["General", "time"],
      dest_path := ["General", "time"], cast_fn := .toStr,
      units := Option.none, conv_fn := Option.none, override := false },
    { source_dict := meta, source_path := ["General", "time_zone"],
      dest_path := ["General", "time_zone"], cast_fn := .toStr,
      units := Option.none, conv_fn := Option.none, override := false },
    { source_dict := meta, source_path := ["General", "title"],
      dest_path := ["General", "title"], cast_fn := .toStr,
      units := Option.none, conv_fn := Option.none, override := false } ]

/-- `"SEM" in self.meta.get('Acquisition_instrument', {}).keys()` raises
`AttributeError` when the stored `Acquisition_instrument` value is not a
mapping (`.keys()` on a non-dict); otherwise the key list. -/
def instKeys (meta : Em) : Except PyErr (List String) :=
  match (lookupD meta "Acquisition_instrument").getD (.dict []) with
  | .dict kvs => .ok (kvs.map Prod.fst)
  | _ => .error .attributeError

/-- `_process_hs_data`: determine the instrument class (`SEM`, then `TEM`,
else `'None'`), run the instrument rules and detector rules when the
instrument subtree exists, then the general rules. -/
def process_hs_data (meta : Em) (em : Em) : Except PyErr Em := do
  let keys ← instKeys meta
  let inst := if keys.contains "SEM" then "SEM"
              else if keys.contains "TEM" then "TEM" else "None"
  let inst_data := pyGet (.dict meta) ["Acquisition_instrument", inst]
  let em1 :=
    match inst_data with
    | some idata => process_hs_detectors idata (applyRules (hsInstrumentRules idata) em)
    | Option.none => em
  pure (applyRules (hsGeneralRules (.dict meta)) em1)

/-! ## `__get_dm3_tag_pre_path` and `_dm3_general_info` -/

/-- `__get_dm3_tag_pre_path`: if the stack tag
`ImageList.TagGroup0.ImageTags.plane info` is present the metadata lives
under `... .plane info.TagGroup0.source tags`, else directly under
`ImageList.TagGroup0.ImageTags`. -/
def dm3TagPrePath (raw : Em) : List String :=
  if (pyGet (.dict raw) ["ImageList", "TagGroup0", "ImageTags", "plane info"]).isSome
  then ["ImageList", "TagGroup0", "ImageTags", "plane info", "TagGroup0", "source tags"]
  else ["ImageList", "TagGroup0", "ImageTags"]

/-- The `Microscope Info` rule list of `_dm3_general_info`
(`base = pre_path + ('Microscope Info',)`). -/
def dm3MicroscopeInfoRules (raw : Em) (base : List String) : List MappingElements :=
  [ { source_dict := .dict raw, source_path := base ++ ["Indicated Magnification"],
      dest_path := ["General_EM", "magnification_indicated"],
      cast_fn := .toFloat, units := some "UNITLESS", conv_fn := Option.none,
      override := false },
    { source_dict := .dict raw, source_path := base ++ ["Actual Magnification"],
      dest_path := ["General_EM", "magnification_actual"], cast_fn := .toFloat,
      units := some "UNITLESS", conv_fn := Option.none, override := false },
    { source_dict := .dict raw, source_path := base ++ ["Cs(mm)"],
      dest_path := ["TEM", "spherical_aberration_coefficient"],
      cast_fn := .toFloat, units := some "MilliM", conv_fn := Option.none,
      override := false },
    { source_dict := .dict raw, source_path := base ++ ["STEM Camera Length"],
      dest_path := ["TEM", "camera_length"], cast_fn := .toFloat,
      units := some "MilliM", conv_fn := Option.none, override := false },
    { source_dict := .dict raw, source_path := base ++ ["Operation Mode"],
      dest_path := ["TEM", "operation_mode"], cast_fn := .toStr,
      units := Option.none, conv_fn := Option.none, override := false },
    { source_dict := .dict raw, source_path := base ++ ["Imaging Mode"],
      dest_path := ["TEM", "imaging_mode"], cast_fn := .toStr,
      units := Option.none, conv_fn := Option.none, override := false },
    { source_dict := .dict raw, source_path := base ++ ["Illumination Mode"],
      dest_path := ["TEM", "illumination_mode"], cast_fn := .toStr,
      units := Option.none, conv_fn := Option.none, override := false },
    { source_dict := .dict raw, source_path := base ++ ["Microscope"],
      dest_path := ["General_EM", "microscope_name"], cast_fn := .toStr,
      units := Option.none, conv_fn := Option.none, override := false },
    { source_dict := .dict raw, source_path := base ++ ["Stage Position", "Stage X"],
      dest_path := ["General_EM", "stage_position", "x"], cast_fn := .toFloat,
      units := some "MilliM", conv_fn := some .div1000, override := false },
    { source_dict := .dict raw, source_path := base ++ ["Stage Position", "Stage Y"],
      dest_path := ["General_EM", "stage_position", "y"], cast_fn := .toFloat,
      units := some "MilliM", conv_fn := some .div1000, override := false },
    { source_dict := .dict raw, source_path := base ++ ["Stage Position", "Stage Z"],
      dest_path := ["General_EM", "stage_position", "z"], cast_fn := .toFloat,
      units := some "MilliM", conv_fn := some .div1000, override := false },
    { source_dict := .dict raw, source_path := base ++ ["Stage Position", "Stage Alpha"],
      dest_path := ["General_EM", "stage_position", "tilt_alpha"],
      cast_fn := .toFloat, units := some "DEG", conv_fn := Option.none,
      override := false },
    { source_dict := .dict raw, source_path := base ++ ["Stage Position", "Stage Beta"],
      dest_path := ["General_EM", "stage_position", "tilt_beta"],
      cast_fn := .toFloat, units := some "DEG", conv_fn := Option.none,
      override := false },
    { source_dict := .dict raw, source_path := base ++ ["Emission Current (µA)"],
      dest_path := ["General_EM", "emission_current"], cast_fn := .toFloat,
      units := some "MicroA", conv_fn := Option.none, override := false } ]

/-- The conditional `Voltage` rule of `_dm3_general_info`: built only when
`get_val(self.raw_meta, base + ('Voltage',), float)` is not `None`; its unit
and conversion depend on the magnitude of the captured `voltage`. -/
def dm3VoltageRules (raw : Em) (base : List String) : List MappingElements :=
  match (pyGet (.dict raw) (base ++ ["Voltage"])).bind pyFloat with
  | some voltage =>
    [ { source_dict := .dict raw, source_path := base ++ ["Voltage"],
        dest_path := ["General_EM", "accelerating_voltage"],
        cast_fn := .toFloat,
        units := some (if ratGe voltage 1000 then "KiloEV" else "EV"),
        conv_fn := some (if ratGe voltage 1000 then ConvFn.div1000 else ConvFn.idConv),
        override := false } ]
  | Option.none => []

/-- The `Session Info` rules of `_dm3_general_info`. -/
def dm3SessionRules (raw : Em) (base : List String) : List MappingElements :=
  [ { source_dict := .dict raw, source_path := base ++ ["Detector"],
      dest_path := ["General_EM", "detector_name"], cast_fn := .toStr,
      units := Option.none, conv_fn := Option.none, override := false },
    { source_dict := .dict raw, source_path := base ++ ["Microscope"],
      dest_path := ["General_EM", "microscope_name"], cast_fn := .toStr,
      units := Option.none, conv_fn := Option.none, override := false } ]

/-- The `Meta Data` rules of `_dm3_general_info`. -/
def dm3MetaDataRules (raw : Em) (base : List String) : List MappingElements :=
  [ { source_dict := .dict raw, source_path := base ++ ["Acquisition Mode"],
      dest_path := ["TEM", "acquisition_mode"], cast_fn := .toStr,
      units := Option.none, conv_fn := Option.none, override := false },
    { source_dict := .dict raw, source_path := base ++ ["Format"],
      dest_path := ["TEM", "acquisition_format"], cast_fn := .toStr,
      units := Option.none, conv_fn := Option.none, override := false },
    { source_dict := .dict raw, source_path := base ++ ["Signal"],
      dest_path := ["TEM", "acquisition_signal"], cast_fn := .toStr,
      units := Option.none, conv_fn := Option.none, override := false },
    { source_dict := .dict raw,
      source_path := base ++ ["Experiment keywords", "TagGroup1", "Label"],
      dest_path := ["TEM", "acquisition_signal"], cast_fn := .toStr,
      units := Option.none, conv_fn := Option.none, override := false } ]

/-- The miscellaneous DM-tag rules of `_dm3_general_info`
(`base = pre_path`); includes the two alternative `acquisition_device`
locations and the two alternative `exposure_time` locations. -/
def dm3MiscRules (raw : Em) (base : List String) : List MappingElements :=
  [ { source_dict := .dict raw, source_path := base ++ ["Acquisition", "Device", "Name"],
      dest_path := ["TEM", "acquisition_device"], cast_fn := .toStr,
      units := Option.none, conv_fn := Option.none, override := false },
    { source_dict := .dict raw, source_path := base ++ ["DataBar", "Device Name"],
      dest_path := ["TEM", "acquisition_device"], cast_fn := .toStr,
      units := Option.none, conv_fn := Option.none, override := false },
    { source_dict := .dict raw,
      source_path := base ++ ["Acquisition", "Parameters", "High Level", "Exposure (s)"],
      dest_path := ["General_EM", "exposure_time"], cast_fn := .toFloat,
      units := some "SEC", conv_fn := Option.none, override := false },
    { source_dict := .dict raw, source_path := base ++ ["DataBar", "Exposure Time (s)"],
      dest_path := ["General_EM", "exposure_time"], cast_fn := .toFloat,
      units := some "SEC", conv_fn := Option.none, override := false },
    { source_dict := .dict raw, source_path := base ++ ["GMS Version", "Created"],
      dest_path := ["General_EM", "acquisition_software_version"],
      cast_fn := .toStr, units := Option.none, conv_fn := Option.none,
      override := false } ]

/-- `_dm3_general_info`: build the full rule list, set
`General_EM.acquisition_software_name` to `'DigitalMicrograph'` when the
DigitalMicrograph tag root is present (this `set_val_units` call happens
before `map_dict_values(mapping)` runs), then apply the rules. -/
def dm3_general_info (raw : Em) (em : Em) : Em :=
  let pre := dm3TagPrePath raw
  let mapping :=
    dm3MicroscopeInfoRules raw (pre ++ ["Microscope Info"]) ++
    dm3VoltageRules raw (pre ++ ["Microscope Info"]) ++
    dm3SessionRules raw (pre ++ ["Session Info"]) ++
    dm3MetaDataRules raw (pre ++ ["Meta Data"]) ++
    dm3MiscRules raw pre
  let em1 :=
    if (pyGet (.dict raw) ["ImageList", "TagGroup0", "ImageTags"]).isSome then
      setPathD em ["General_EM", "acquisition_software_name"]
        (.str "DigitalMicrograph") false
    else em
  applyRules mapping em1

/-! ## `_dm3_eels_info` and `_dm3_eds_info` -/

/-- The basic EELS rules of `_dm3_eels_info` (`base = pre_path + ('EELS',)`). -/
def dm3EelsBaseRules (raw : Em) (base : List String) : List MappingElements :=
  [ { source_dict := .dict raw, source_path := base ++ ["Acquisition", "Exposure (s)"],
      dest_path := ["General_EM", "exposure_time"], cast_fn := .toFloat,
      units := some "SEC", conv_fn := Option.none, override := false },
    { source_dict := .dict raw,
      source_path := base ++ ["Acquisition", "Integration time (s)"],
      dest_path := ["EELS", "integration_time"], cast_fn := .toFloat,
      units := some "SEC", conv_fn := Option.none, override := false },
    { source_dict := .dict raw,
      source_path := base ++ ["Acquisition", "Number of frames"],
      dest_path := ["EELS", "number_of_samples"], cast_fn := .toInt,
      units := some "NUM", conv_fn := Option.none, override := false },
    { source_dict := .dict raw,
      source_path := base ++ ["Experimental Conditions", "Collection semi-angle (mrad)"],
      dest_path := ["EELS", "collection_angle"], cast_fn := .toFloat,
      units := some "MilliRAD", conv_fn := Option.none, override := false },
    { source_dict := .dict raw,
      source_path := base ++ ["Experimental Conditions", "Convergence semi-angle (mrad)"],
      dest_path := ["General_EM", "convergence_angle"], cast_fn := .toFloat,
      units := some "MilliRAD", conv_fn := Option.none, override := false } ]

/-- The spectrometer rules of `_dm3_eels_info` (`spect_path` is one of the
two alternative locations). -/
def dm3EelsSpectRules (raw : Em) (spect_path : List String) : List MappingElements :=
  [ { source_dict := .dict raw, source_path := spect_path ++ ["Aperture label"],
      dest_path := ["EELS", "aperture_size"], cast_fn := .apertureMm,
      units := some "MilliM", conv_fn := Option.none, override := false },
    { source_dict := .dict raw, source_path := spect_path ++ ["Dispersion (eV/ch)"],
      dest_path := ["EELS", "dispersion_per_channel"], cast_fn := .toFloat,
      units := some "EV", conv_fn := Option.none, override := false },
    { source_dict := .dict raw, source_path := spect_path ++ ["Energy loss (eV)"],
      dest_path := ["EELS", "energy_loss_offset"], cast_fn := .toFloat,
      units := some "EV", conv_fn := Option.none, override := false },
    { source_dict := .dict raw, source_path := spect_path ++ ["Instrument name"],
      dest_path := ["EELS", "spectrometer_name"], cast_fn := .toStr,
      units := Option.none, conv_fn := Option.none, override := false },
    { source_dict := .dict raw, source_path := spect_path ++ ["Drift tube voltage (V)"],
      dest_path := ["EELS", "drift_tube_voltage"], cast_fn := .toFloat,
      units := some "V", conv_fn := Option.none, override := false },
    { source_dict := .dict raw, source_path := spect_path ++ ["Drift tube enabled"],
      dest_path := ["EELS", "drift_tube_enabled"], cast_fn := .toBool,
      units := Option.none, conv_fn := Option.none, override := false },
    { source_dict := .dict raw, source_path := spect_path ++ ["Prism offset (V)"],
      dest_path := ["EELS", "prism_shift_voltage"], cast_fn := .toFloat,
      units := some "V", conv_fn := Option.none, override := false },
    { source_dict := .dict raw, source_path := spect_path ++ ["Prism offset enabled "],
      dest_path := ["EELS", "prism_shift_enabled"], cast_fn := .toBool,
      units := Option.none, conv_fn := Option.none, override := false },
    { source_dict := .dict raw, source_path := spect_path ++ ["Slit width (eV)"],
      dest_path := ["EELS", "filter_slit_width"], cast_fn := .toFloat,
      units := some "EV", conv_fn := Option.none, override := false },
    { source_dict := .dict raw, source_path := spect_path ++ ["Slit inserted"],
      dest_path := ["EELS", "filter_slit_inserted"], cast_fn := .toBool,
      units := Option.none, conv_fn := Option.none, override := false } ]

/-- `_dm3_eels_info`: basic rules plus spectrometer rules, where the
spectrometer block is looked for at `EELS.Acquisition.Spectrometer` first
and at `EELS Spectrometer` otherwise. -/
def dm3_eels_info (raw : Em) (em : Em) : Em :=
  let pre := dm3TagPrePath raw
  let spect_path :=
    if (pyGet (.dict raw) (pre ++ ["EELS", "Acquisition", "Spectrometer"])).isSome
    then pre ++ ["EELS", "Acquisition", "Spectrometer"]
    else pre ++ ["EELS Spectrometer"]
  applyRules
    (dm3EelsBaseRules raw (pre ++ ["EELS"]) ++ dm3EelsSpectRules raw spect_path) em

/-- The rule list of `_dm3_eds_info` (`base = pre_path + ('EDS',)`). -/
def dm3EdsRules (raw : Em) (base : List String) : List MappingElements :=
  [ { source_dict := .dict raw,
      source_path := base ++ ["Detector Info", "Azimuthal angle"],
      dest_path := ["EDS", "azimuth_angle"], cast_fn := .toFloat,
      units := some "DEG", conv_fn := Option.none, override := false },
    { source_dict := .dict raw,
      source_path := base ++ ["Detector Info", "Detector type"],
      dest_path := ["EDS", "detector_type"], cast_fn := .toStr,
      units := Option.none, conv_fn := Option.none, override := false },
    { source_dict := .dict raw,
      source_path := base ++ ["Acquisition", "Dispersion (eV)"],
      dest_path := ["EDS", "dispersion_per_channel"], cast_fn := .toFloat,
      units := some "EV", conv_fn := Option.none, override := false },
    { source_dict := .dict raw,
      source_path := base ++ ["Detector Info", "Elevation angle"],
      dest_path := ["EDS", "elevation_angle"], cast_fn := .toFloat,
      units := some "DEG", conv_fn := Option.none, override := false },
    { source_dict := .dict raw,
      source_path := base ++ ["Detector Info", "Incidence angle"],
      dest_path := ["EDS", "incidence_angle"], cast_fn := .toFloat,
      units := some "DEG", conv_fn := Option.none, override := false },
    { source_dict := .dict raw, source_path := base ++ ["Live time"],
      dest_path := ["EDS", "live_time"], cast_fn := .toFloat,
      units := some "SEC", conv_fn := Option.none, override := false },
    { source_dict := .dict raw, source_path := base ++ ["Real time"],
      dest_path := ["EDS", "real_time"], cast_fn := .toFloat,
      units := some "SEC", conv_fn := Option.none, override := false },
    { source_dict := .dict raw,
      source_path := base ++ ["Detector Info", "Solid angle"],
      dest_path := ["EDS", "solid_angle"], cast_fn := .toFloat,
      units := some "SR", conv_fn := Option.none, override := false },
    { source_dict := .dict raw,
      source_path := base ++ ["Detector Info", "Stage tilt"],
      dest_path := ["EDS", "stage_tilt"], cast_fn := .toFloat,
      units := some "DEG", conv_fn := Option.none, override := false } ]

/-- `_dm3_eds_info`. -/
def dm3_eds_info (raw : Em) (em : Em) : Em :=
  let pre := dm3TagPrePath raw
  applyRules (dm3EdsRules raw (pre ++ ["EDS"])) em

/-! ## `_dm3_tecnai_info` -/

/-- The Tecnai free-text block location (note: a fixed path, not the
stack-adjusted pre-path). -/
def tecnaiPath : List String :=
  ["ImageList", "TagGroup0", "ImageTags", "Tecnai", "Microscope Info"]

/-- The hard-coded DigitalMicrograph delimiter (U+2028 LINE SEPARATOR). -/
def tecnaiDelim : Char := '\u2028'

/-- The nine base rules of `_dm3_tecnai_info`, in source order, built from
the already-computed extraction results (each rule's `source_dict` is the
single-entry ad-hoc dict of the source). -/
def tecnaiBaseRules (micName extr emis opMode df1 df2 magn cl spot : Option String) :
    List MappingElements :=
  [ { source_dict := .dict [("Microscope_Name", strOptVal micName)],
      source_path := ["Microscope_Name"],
      dest_path := ["General_EM", "microscope_name"], cast_fn := .toStr,
      units := Option.none, conv_fn := Option.none, override := true },
    { source_dict := .dict [("Extractor_Voltage", strOptVal extr)],
      source_path := ["Extractor_Voltage"],
      dest_path := ["TEM", "extractor_voltage"], cast_fn := .toInt,
      units := some "V", conv_fn := Option.none, override := true },
    { source_dict := .dict [("Emission_Current", strOptVal emis)],
      source_path := ["Emission_Current"],
      dest_path := ["General_EM", "emission_current"], cast_fn := .toFloat,
      units := some "MicroA", conv_fn := Option.none, override := true },
    { source_dict := .dict [("Operation_Mode", strOptVal opMode)],
      source_path := ["Operation_Mode"],
      dest_path := ["TEM", "operation_mode"], cast_fn := .toStr,
      units := Option.none, conv_fn := Option.none, override := true },
    { source_dict := .dict [("Defocus", strOptVal df1)],
      source_path := ["Defocus"],
      dest_path := ["TEM", "defocus"], cast_fn := .toFloat,
      units := some "MicroM", conv_fn := Option.none, override := true },
    { source_dict := .dict [("Defocus", strOptVal df2)],
      source_path := ["Defocus"],
      dest_path := ["TEM", "defocus"], cast_fn := .toFloat,
      units := some "MicroM", conv_fn := Option.none, override := true },
    { source_dict := .dict [("Magnification", strOptVal magn)],
      source_path := ["Magnification"],
      dest_path := ["General_EM", "magnification_indicated"],
      cast_fn := .toInt, units := some "UNITLESS", conv_fn := Option.none,
      override := true },
    { source_dict := .dict [("Camera_Length", strOptVal cl)],
      source_path := ["Camera_Length"],
      dest_path := ["TEM", "camera_length"], cast_fn := .toFloat,
      units := some "MilliM", conv_fn := some .mul1000, override := true },
    { source_dict := .dict [("Spot_Size", strOptVal spot)],
      source_path := ["Spot_Size"],
      dest_path := ["TEM", "spot_size"], cast_fn := .toInt,
      units := some "UNITLESS", conv_fn := Option.none, override := true } ]

/-- The five stage-position rules of `_dm3_tecnai_info`, built from the
unpacked `re.findall` captures (`stage = {'x': x, 'y': y, 'z': z, 'a': alpha,
'b': beta}`). -/
def tecnaiStageRules (x y z a b : String) : List MappingElements :=
  [ { source_dict := .dict [("x", .str x), ("y", .str y), ("z", .str z),
        ("a", .str a), ("b", .str b)],
      source_path := ["x"], dest_path := ["General_EM", "stage_position", "x"],
      cast_fn := .toFloat, units := some "MicroM", conv_fn := Option.none,
      override := true },
    { source_dict := .dict [("x", .str x), ("y", .str y), ("z", .str z),
        ("a", .str a), ("b", .str b)],
      source_path := ["y"], dest_path := ["General_EM", "stage_position", "y"],
      cast_fn := .toFloat, units := some "MicroM", conv_fn := Option.none,
      override := true },
    { source_dict := .dict [("x", .str x), ("y", .str y), ("z", .str z),
        ("a", .str a), ("b", .str b)],
      source_path := ["z"], dest_path := ["General_EM", "stage_position", "z"],
      cast_fn := .toFloat, units := some "MicroM", conv_fn := Option.none,
      override := true },
    { source_dict := .dict [("x", .str x), ("y", .str y), ("z", .str z),
        ("a", .str a), ("b", .str b)],
      source_path := ["a"],
      dest_path := ["General_EM", "stage_position", "tilt_alpha"],
      cast_fn := .toFloat, units := some "DEG", conv_fn := Option.none,
      override := true },
    { source_dict := .dict [("x", .str x), ("y", .str y), ("z", .str z),
        ("a", .str a), ("b", .str b)],
      source_path := ["b"],
      dest_path := ["General_EM", "stage_position", "tilt_beta"],
      cast_fn := .toFloat, units := some "DEG", conv_fn := Option.none,
      override := true } ]

/-- The six filter-settings rules of `_dm3_tecnai_info`, in source order,
built from the `filter_dict` entries. -/
def tecnaiFilterRules (fMode fDisp fAper fPrism fDrift fTotal : Option String) :
    List MappingElements :=
  [ { source_dict := .dict [("Mode", strOptVal fMode)],
      source_path := ["Mode"], dest_path := ["EELS", "spectrometer_mode"],
      cast_fn := .toStr, units := Option.none, conv_fn := Option.none,
      override := true },
    { source_dict := .dict [("Dispersion", strOptVal fDisp)],
      source_path := ["Dispersion"],
      dest_path := ["EELS", "dispersion_per_channel"], cast_fn := .toFloat,
      units := some "EV", conv_fn := Option.none, override := true },
    { source_dict := .dict [("Aperture", strOptVal fAper)],
      source_path := ["Aperture"], dest_path := ["EELS", "aperture_size"],
      cast_fn := .toFloat, units := some "MilliM", conv_fn := Option.none,
      override := true },
    { source_dict := .dict [("Drift", strOptVal fDrift)],
      source_path := ["Drift"], dest_path := ["EELS", "drift_tube_energy"],
      cast_fn := .toFloat, units := some "EV", conv_fn := Option.none,
      override := true },
    { source_dict := .dict [("Prism", strOptVal fPrism)],
      source_path := ["Prism"], dest_path := ["EELS", "prism_shift_energy"],
      cast_fn := .toFloat, units := some "EV", conv_fn := Option.none,
      override := true },
    { source_dict := .dict [("TotalLoss", strOptVal fTotal)],
      source_path := ["TotalLoss"], dest_path := ["EELS", "total_energy_loss"],
      cast_fn := .toFloat, units := some "EV", conv_fn := Option.none,
      override := true } ]

/-- The stage-position block of `_dm3_tecnai_info`: when a `Stage` line is
found and truthy, unpack the `re.findall` captures (`ValueError` unless
exactly three ` um` and two ` deg` captures) and build the five stage rules;
otherwise contribute nothing. -/
def tecnaiStageBlock (lines : List String) : Except PyErr (List MappingElements) :=
  match findVal "Stage" lines with
  | some sv =>
    if sv.isEmpty then pure []
    else
      match findAllNum "um".data sv.data, findAllNum "deg".data sv.data with
      | [x, y, z], [a, b] => pure (tecnaiStageRules x y z a b)
      | _, _ => Except.error PyErr.valueError
  | Option.none => pure ([] : List MappingElements)

/-- The filter-settings block of `_dm3_tecnai_info`: when a `Filter related
settings` line is found and truthy, build `filter_dict` (each
`__extract_val(..., __find_val(...))` raises `TypeError` when the sub-line is
absent) and the six filter rules; otherwise contribute nothing. -/
def tecnaiFilterBlock (lines : List String) : Except PyErr (List MappingElements) :=
  match findVal "Filter related settings" lines with
  | some fv =>
    if fv.isEmpty then pure []
    else do
      let fMode := findVal "Mode: " lines
      let fDisp ← extractVal reDispersion (findVal "Selected dispersion: " lines)
      let fAper ← extractVal reApertureMm (findVal "Selected aperture: " lines)
      let fPrism ← extractVal reEV (findVal "Prism shift: " lines)
      let fDrift ← extractVal reEV (findVal "Drift tube: " lines)
      let fTotal ← extractVal reEV (findVal "Total energy loss: " lines)
      pure (tecnaiFilterRules fMode fDisp fAper fPrism fDrift fTotal)
  | Option.none => pure ([] : List MappingElements)

/-- Build the full Tecnai rule list, in Python evaluation order: the nine
base elements (each `__extract_val(..., __find_val(...))` raises `TypeError`
when the line is absent), then the stage-position block, then the
filter-settings block. -/
def tecnaiRules (lines : List String) : Except PyErr (List MappingElements) := do
  let micName := findVal "Microscope " lines
  let extr ← extractVal reExtrVolt (findVal "Extr volt " lines)
  let emis ← extractVal reEmission (findVal "Emission " lines)
  let opMode ← extractVal reOpMode (findVal "Mode " lines)
  let df1 ← extractVal reDefocusUm (findVal "Mode " lines)
  let df2 ← extractVal reDefocusCL (findVal "Mode " lines)
  let magn ← extractVal reMagn (findVal "Mode " lines)
  let cl ← extractVal reCLm (findVal "Mode " lines)
  let spot := findVal "Spot " lines
  let base := tecnaiBaseRules micName extr emis opMode df1 df2 magn cl spot
  let stageRules ← tecnaiStageBlock lines
  let filtRules ← tecnaiFilterBlock lines
  pure (base ++ stageRules ++ filtRules)

/-- `_dm3_tecnai_info`: return unchanged when the Tecnai string is absent;
split it on the delimiter; build the rule list (propagating any exception)
and apply it.  A present non-string value would raise `AttributeError` at
`.split`. -/
def dm3_tecnai_info (raw : Em) (em : Em) : Except PyErr Em :=
  match pyGet (.dict raw) tecnaiPath with
  | Option.none => .ok em
  | some (.str s) => do
    let rules ← tecnaiRules (pySplit s tecnaiDelim)
    pure (applyRules rules em)
  | some _ => .error .attributeError

/-! ## The direct top-level writes, the image block, and `_parse_file` -/

/-- `micro_info`: `raw_meta["ImageList"]["TagGroup0"]["ImageTags"]["Microscope
Info"]` with `{}` on exception. -/
def microInfoOf (raw : Em) : PyVal :=
  match getPathD (.dict raw) ["ImageList", "TagGroup0", "ImageTags", "Microscope Info"] with
  | some v => v
  | Option.none => .dict []

/-- `exp_desc`: `raw_meta["ObjectInfo"]["ExperimentalDescription"]` with `{}`
on exception. -/
def expDescOf (raw : Em) : PyVal :=
  match getPathD (.dict raw) ["ObjectInfo", "ExperimentalDescription"] with
  | some v => v
  | Option.none => .dict []

/-- `self.em[k] = v` guarded by a `try/except`: write the value when the
guarded computation succeeded, else leave the dict unchanged. -/
def writeIfSome (em : Em) (k : String) : Option PyVal → Em
  | some v => setKey em k v
  | Option.none => em

/-- The four direct top-level writes of `_parse_file` (lines 175–201 of the
source): `emission_current`, `operation_mode`, `microscope` and `spot_size`
are assigned directly on `self.em` (not under any section), each in its own
`try/except` (with the `emission_current` and `microscope` fallbacks as
nested `try`s; `str()` is total, so for `operation_mode` and `microscope`
only the indexing can fail). -/
def directWrites (raw : Em) (em : Em) : Em :=
  let micro := microInfoOf raw
  let exp := expDescOf raw
  let em := writeIfSome em "emission_current"
    (((((getPathD micro ["Emission Current (µA)"]).bind pyFloat).orElse
        (fun _ => (getPathD exp ["Emission_uA"]).bind pyFloat))).map PyVal.float)
  let em := writeIfSome em "operation_mode"
    ((getPathD micro ["Operation Mode"]).map (fun v => .str (pyStr v)))
  let em := writeIfSome em "microscope"
    (((getPathD (.dict raw)
        ["ImageList", "TagGroup0", "ImageTags", "Session Info", "Microscope"]).orElse
      (fun _ => getPathD micro ["Name"])).map (fun v => .str (pyStr v)))
  writeIfSome em "spot_size" (((getPathD exp ["Spot size"]).bind pyInt).map PyVal.int)

/-- `[int(dim) for dim in ...]`: cast every entry with `int`, aborting the
whole comprehension at the first failure. -/
def castAllInt : List PyVal → Option (List ℤ)
  | [] => some []
  | v :: vs =>
    match pyInt v with
    | some n => (castAllInt vs).map (n :: ·)
    | Option.none => Option.none

/-- The X/Y swap of the image block: with at least two axes the first two are
exchanged and the rest kept; with fewer the list passes through. -/
def reorderShape : List ℤ → List ℤ
  | b0 :: b1 :: rest => b1 :: b0 :: rest
  | base => base

/-- The values of `raw_meta["ImageList"]["TagGroup0"]["ImageData"]
["Dimensions"]` (`.values()` raises unless the stored value is a dict). -/
def dimsValues (raw : Em) : Option (List PyVal) :=
  match getPathD (.dict raw) ["ImageList", "TagGroup0", "ImageData", "Dimensions"] with
  | some (.dict kvs) => some (kvs.map Prod.snd)
  | _ => Option.none

/-- The integer-cast dimension list. -/
def dimsInts (raw : Em) : Option (List ℤ) :=
  (dimsValues raw).bind castAllInt

/-- The image block of `_parse_file`: inside one `try`, read the dimension
values, int-cast them, reorder, and keep the result only if non-empty
(`if shape:`); every exception is caught (`except: pass`), leaving
`self.image` empty.  `some s` means `self.image == {"shape": s}`. -/
def imageShape (raw : Em) : Option (List ℤ) :=
  match dimsInts raw with
  | some base =>
    let shape := reorderShape base
    if shape.isEmpty then Option.none else some shape
  | Option.none => Option.none

/-- `self.em` right after lines 143–148: the raw-metadata passthrough
followed by the six empty sections. -/
def emInit (raw : Em) : Em :=
  [("raw_metadata", .dict raw), ("General", .dict []), ("General_EM", .dict []),
   ("TEM", .dict []), ("SEM", .dict []), ("EDS", .dict []), ("EELS", .dict [])]

/-- The final record assembly of `_parse_file`: include `electron_microscopy`
when the pruned `self.em` is non-empty and `image` when `self.image` is
non-empty. -/
def assembleRecord (em : Em) (img : Option (List ℤ)) : Em :=
  (if em.isEmpty then [] else [("electron_microscopy", PyVal.dict em)]) ++
  (match img with
   | some s => [("image", PyVal.dict [("shape", PyVal.list (s.map PyVal.int))])]
   | Option.none => [])

/-- `_parse_file`, starting after the external `hs_load` decode call: `meta`
is `hs_data.metadata.as_dictionary()` and `raw` is
`hs_data.original_metadata.as_dictionary()` (both dicts).  The processor
methods run in source order (`_dm3_spectrum_image_info`, `_tia_info` and
`_tiff_info` are `pass`/no-ops in the source), then the direct top-level
writes, the image block, the top-level prune, and the record assembly. -/
def parse_file (meta raw : Em) : Except PyErr Em := do
  let em0 := emInit raw
  let em1 ← process_hs_data meta em0
  let em2 := dm3_general_info raw em1
  let em3 := dm3_eels_info raw em2
  let em4 ← dm3_tecnai_info raw em3
  let em5 := dm3_eds_info raw em4
  let em6 := directWrites raw em5
  let img := imageShape raw
  pure (assembleRecord (pruneTop em6) img)

/-! ## Concrete inputs used by the claim instances below -/

/-- The spec's end-to-end example: structured metadata with a TEM beam energy
of 200.0 and microscope name `JEOL`. -/
def exMeta : Em :=
  [("Acquisition_instrument", .dict [("TEM", .dict
      [("beam_energy", .float 200), ("microscope", .str "JEOL")])])]

/-- Raw metadata carrying a DigitalMicrograph `Operation Mode` tag. -/
def rawOpMode : Em :=
  [("ImageList", .dict [("TagGroup0", .dict [("ImageTags", .dict
      [("Microscope Info", .dict [("Operation Mode", .str "SAMAG")])])])])]

/-- Raw metadata whose Tecnai free-text block is a single line with no
`Extr volt ` marker. -/
def rawNoExtr : Em :=
  [("ImageList", .dict [("TagGroup0", .dict [("ImageTags", .dict
      [("Tecnai", .dict [("Microscope Info", .str "Microscope Titan")])])])])]

/-- A Tecnai free-text block whose `Mode ` line matches both defocus
patterns: the imaging-mode pattern captures `1.2` and the diffraction-mode
pattern captures `3.4`. -/
def tecnaiBothDefocus : String :=
  "Extr volt 4000 V Emission 120.5uA Mode Image Defocus (um) 1.2 Magn 100x Defocus 3.4 CL 100m"

/-- Raw metadata carrying `tecnaiBothDefocus`. -/
def rawBothDefocus : Em :=
  [("ImageList", .dict [("TagGroup0", .dict [("ImageTags", .dict
      [("Tecnai", .dict [("Microscope Info", .str tecnaiBothDefocus)])])])])]

/-- Raw metadata with the two alternative exposure-time tags (first 0.5 s,
second 99.0 s). -/
def rawTwoExposures : Em :=
  [("ImageList", .dict [("TagGroup0", .dict [("ImageTags", .dict
      [("Acquisition", .dict [("Parameters", .dict [("High Level", .dict
          [("Exposure (s)", .float (mkRat 1 2))])])]),
       ("DataBar", .dict [("Exposure Time (s)", .float 99)])])])])]

/-- Raw metadata with a 2-axis dimension tag `{10, 20}`. -/
def rawDims2 : Em :=
  [("ImageList", .dict [("TagGroup0", .dict [("ImageData", .dict
      [("Dimensions", .dict [("0", .int 10), ("1", .int 20)])])])])]

/-- Raw metadata whose dimension tag has a non-castable entry. -/
def rawDimsBad : Em :=
  [("ImageList", .dict [("TagGroup0", .dict [("ImageData", .dict
      [("Dimensions", .dict [("0", .int 10), ("1", .str "abc")])])])])]

mutual

/-- No value anywhere in the tree is "empty" (`None`, an empty sequence or
an empty mapping) — the spec's "tree with no empty values". -/
def noEmptyDeep : PyVal → Bool
  | PyVal.none => false
  | .bool _ => true
  | .int _ => true
  | .float _ => true
  | .str _ => true
  | .list xs => !xs.isEmpty && noEmptyList xs
  | .dict kvs => !kvs.isEmpty && noEmptyEntries kvs

/-- `noEmptyDeep` over the elements of a list. -/
def noEmptyList : List PyVal → Bool
  | [] => true
  | v :: vs => noEmptyDeep v && noEmptyList vs

/-- `noEmptyDeep` over the values of a dict. -/
def noEmptyEntries : List (String × PyVal) → Bool
  | [] => true
  | kv :: rest => noEmptyDeep kv.2 && noEmptyEntries rest

end

/-- The first three miscellaneous DM rules (both `acquisition_device` rules,
which do not fire on `rawTwoExposures`, and the first `exposure_time` rule)
applied to the fresh `self.em` — the state right after the first
`exposure_time` location has been written with 0.5 s. -/
def c4emW : Em :=
  applyRules
    ((dm3MiscRules rawTwoExposures ["ImageList", "TagGroup0", "ImageTags"]).take 3)
    (emInit rawTwoExposures)

/-- The second (`DataBar`) `exposure_time` rule, as a one-element rule list. -/
def c4rule2 : List MappingElements :=
  ((dm3MiscRules rawTwoExposures ["ImageList", "TagGroup0", "ImageTags"]).drop 3).take 1

/-- Raw metadata with a DigitalMicrograph `Voltage` tag of 200000 (volts). -/
def rawVolt : Em :=
  [("ImageList", .dict [("TagGroup0", .dict [("ImageTags", .dict
      [("Microscope Info", .dict [("Voltage", .float 200000)])])])])]

/-- One Tecnai defocus rule (rules 5 and 6 of the base list share this shape,
differing only in which pattern produced the captured string). -/
def tecnaiDefocusRule (df : Option String) : MappingElements :=
  { source_dict := .dict [("Defocus", strOptVal df)], source_path := ["Defocus"],
    dest_path := ["TEM", "defocus"], cast_fn := .toFloat,
    units := some "MicroM", conv_fn := Option.none, override := true }

/-- The first four Tecnai base rules (microscope name, extractor voltage,
emission current, operation mode). -/
def tecnaiPre4 (micName extr emis opMode : Option String) : List MappingElements :=
  [ { source_dict := .dict [("Microscope_Name", strOptVal micName)],
      source_path := ["Microscope_Name"],
      dest_path := ["General_EM", "microscope_name"], cast_fn := .toStr,
      units := Option.none, conv_fn := Option.none, override := true },
    { source_dict := .dict [("Extractor_Voltage", strOptVal extr)],
      source_path := ["Extractor_Voltage"],
      dest_path := ["TEM", "extractor_voltage"], cast_fn := .toInt,
      units := some "V", conv_fn := Option.none, override := true },
    { source_dict := .dict [("Emission_Current", strOptVal emis)],
      source_path := ["Emission_Current"],
      dest_path := ["General_EM", "emission_current"], cast_fn := .toFloat,
      units := some "MicroA", conv_fn := Option.none, override := true },
    { source_dict := .dict [("Operation_Mode", strOptVal opMode)],
      source_path := ["Operation_Mode"],
      dest_path := ["TEM", "operation_mode"], cast_fn := .toStr,
      units := Option.none, conv_fn := Option.none, override := true } ]

/-- The last three Tecnai base rules (magnification, camera length, spot
size). -/
def tecnaiPost3 (magn cl spot : Option String) : List MappingElements :=
  [ { source_dict := .dict [("Magnification", strOptVal magn)],
      source_path := ["Magnification"],
      dest_path := ["General_EM", "magnification_indicated"],
      cast_fn := .toInt, units := some "UNITLESS", conv_fn := Option.none,
      override := true },
    { source_dict := .dict [("Camera_Length", strOptVal cl)],
      source_path := ["Camera_Length"],
      dest_path := ["TEM", "camera_length"], cast_fn := .toFloat,
      units := some "MilliM", conv_fn := some .mul1000, override := true },
    { source_dict := .dict [("Spot_Size", strOptVal spot)],
      source_path := ["Spot_Size"],
      dest_path := ["TEM", "spot_size"], cast_fn := .toInt,
      units := some "UNITLESS", conv_fn := Option.none, override := true } ]

/-- The `Mode ` line of `tecnaiBothDefocus` after prefix stripping. -/
def modeLineBoth : String :=
  "Image Defocus (um) 1.2 Magn 100x Defocus 3.4 CL 100m"

/-- The destination tree produced by `_dm3_tecnai_info` on
`rawBothDefocus` over a fresh `self.em`. -/
def c7emResult : Em :=
  match dm3_tecnai_info rawBothDefocus (emInit rawBothDefocus) with
  | .ok em => em
  | .error _ => []

/-- The record produced by `parse_file` on `exMeta` with raw metadata
`rawOpMode` (used to witness the raw-metadata passthrough in the non-empty
case). -/
def recC1W : Em :=
  [("electron_microscopy", .dict
    [("raw_metadata", .dict rawOpMode),
     ("General_EM", .dict
       [("beam_energy", .dict [("value", .float 200), ("unit", .str "KiloEV")]),
        ("microscope_name", .str "JEOL"),
        ("acquisition_software_name", .str "DigitalMicrograph")]),
     ("TEM", .dict [("operation_mode", .str "SAMAG")]),
     ("operation_mode", .str "SAMAG")])]

/-! ## Helper lemmas -/

/-- Destructuring `Except` bind: a bound computation succeeds exactly when
both halves succeed. -/
theorem exBind_ok {ε α β : Type} (x : Except ε α) (f : α → Except ε β) (c : β) :
    x >>= f = .ok c ↔ ∃ b, x = .ok b ∧ f b = .ok c := by
  cases x <;> simp [Bind.bind, Except.bind]

theorem lookupD_setKey_self (d : Em) (k : String) (v : PyVal) :
    lookupD (setKey d k v) k = some v := by
  induction d with
  | nil => simp [setKey, lookupD]
  | cons kv rest ih =>
    by_cases h : kv.1 = k
    · simp [setKey, h, lookupD]
    · simp [setKey, h, lookupD, ih]

theorem lookupD_setKey_ne (d : Em) (k k' : String) (v : PyVal) (h : k ≠ k') :
    lookupD (setKey d k v) k' = lookupD d k' := by
  induction d with
  | nil => simp [setKey, lookupD, h]
  | cons kv rest ih =>
    by_cases hk : kv.1 = k
    · simp [setKey, hk, lookupD, h]
    · simp [setKey, hk, lookupD, ih]

theorem setKey_self (d : Em) (k : String) (v : PyVal)
    (h : lookupD d k = some v) : setKey d k v = d := by
  induction d with
  | nil => simp [lookupD] at h
  | cons kv rest ih =>
    obtain ⟨k1, v1⟩ := kv
    by_cases hk : k1 = k
    · simp [lookupD, hk] at h
      simp [setKey, hk, h]
    · simp [lookupD, hk] at h
      simp [setKey, hk, ih h]

theorem keyEntries_setKey_ne (d : Em) (k k' : String) (v : PyVal)
    (h : k' ≠ k) : keyEntries k (setKey d k' v) = keyEntries k d := by
  induction d with
  | nil => simp [setKey, keyEntries, h]
  | cons kv rest ih =>
    obtain ⟨k1, v1⟩ := kv
    by_cases hk : k1 = k'
    · subst hk
      simp [setKey, keyEntries, List.filter, h]
    · simp only [setKey, hk, if_false]
      by_cases hkk : k1 = k <;> simp [keyEntries, List.filter, hkk] at ih ⊢ <;>
        exact ih

theorem keyEntries_pruneTop (k : String) (em : Em) :
    keyEntries k (pruneTop em) = pruneTop (keyEntries k em) := by
  induction em with
  | nil => rfl
  | cons kv rest ih =>
    by_cases he : isEmptyVal kv.2 <;> by_cases hk : kv.1 = k <;>
      simp [pruneTop, keyEntries, List.filter, he, hk] at ih ⊢ <;>
      simpa [pruneTop, keyEntries] using ih

theorem lookupD_eq_keyEntries_head (d : Em) (k : String) :
    lookupD d k = ((keyEntries k d).head?).map Prod.snd := by
  induction d with
  | nil => rfl
  | cons kv rest ih =>
    obtain ⟨k1, v1⟩ := kv
    by_cases hk : k1 = k
    · simp [lookupD, keyEntries, List.filter, hk]
    · simp [lookupD, keyEntries, List.filter, hk] at ih ⊢
      simpa [keyEntries] using ih

/-- A path whose head is not `k` (vacuously true for the empty path, on which
`setPathD` is the identity). -/
def pathHeadNe (k : String) : List String → Bool
  | [] => true
  | h :: _ => !decide (h = k)

theorem keyEntries_setPathD (d : Em) (q : List String) (v : PyVal) (ov : Bool)
    (k : String) (h : pathHeadNe k q = true) :
    keyEntries k (setPathD d q v ov) = keyEntries k d := by
  match q with
  | [] => rfl
  | [k1] =>
    simp [pathHeadNe] at h
    simp only [setPathD]
    cases hl : lookupD d k1 with
    | none => exact keyEntries_setKey_ne d k k1 v h
    | some old =>
      by_cases hov : (ov || isEmptyVal old) = true
      · simp only [hov, if_true]
        exact keyEntries_setKey_ne d k k1 v h
      · simp [hov]
  | k1 :: k2 :: rest =>
    simp [pathHeadNe] at h
    simp only [setPathD]
    cases hl : lookupD d k1 with
    | none => exact keyEntries_setKey_ne d k k1 _ h
    | some old =>
      cases old with
      | dict sub => exact keyEntries_setKey_ne d k k1 _ h
      | none => rfl
      | bool b => rfl
      | int n => rfl
      | float q' => rfl
      | str s => rfl
      | list xs => rfl

theorem keyEntries_applyRule (em : Em) (r : MappingElements) (k : String)
    (h : pathHeadNe k r.dest_path = true) :
    keyEntries k (applyRule em r) = keyEntries k em := by
  unfold applyRule
  cases hg : pyGet r.source_dict r.source_path with
  | none => rfl
  | some v =>
    cases hc : applyCast r.cast_fn v with
    | none => simp [hc]
    | some cv =>
      cases hv : applyConv r.conv_fn cv with
      | none => simp [hc, hv]
      | some fv =>
        simp only [hc, hv]
        exact keyEntries_setPathD em r.dest_path _ r.override k h

theorem keyEntries_applyRules (rs : List MappingElements) (em : Em) (k : String)
    (h : rs.all (fun r => pathHeadNe k r.dest_path) = true) :
    keyEntries k (applyRules rs em) = keyEntries k em := by
  induction rs generalizing em with
  | nil => rfl
  | cons r rest ih =>
    rw [List.all_cons, Bool.and_eq_true] at h
    simp only [applyRules, List.foldl_cons]
    rw [show List.foldl applyRule (applyRule em r) rest = applyRules rest (applyRule em r) from rfl]
    rw [ih (applyRule em r) h.2, keyEntries_applyRule em r k h.1]

/-! ## Section-leaf invariant (used for the accelerating-voltage and defocus
claims): the section entry is absent or holds a dict in which the leaf has a
given lookup result. -/

/-- `SecInv em sec leaf L`: in `em`, the top-level `sec` entry is absent
(and then `L = Option.none`) or holds a dict whose `leaf` entry looks up to
`L`. -/
def SecInv (em : Em) (sec leaf : String) (L : Option PyVal) : Prop :=
  (lookupD em sec = Option.none ∧ L = Option.none) ∨
  ∃ sub, lookupD em sec = some (.dict sub) ∧ lookupD sub leaf = L

/-- A destination path that cannot change the `sec.leaf` entry: the empty
path, a one-key path other than `sec`, or a longer path whose head differs
from `sec` or whose second key differs from `leaf`. -/
def okPath (sec leaf : String) : List String → Bool
  | [] => true
  | [k] => !decide (k = sec)
  | k :: l :: _ => !decide (k = sec) || !decide (l = leaf)

theorem lookupD_setPathD_head_ne (d : Em) (h' : String) (t : List String)
    (v : PyVal) (ov : Bool) (k : String) (hne : h' ≠ k) :
    lookupD (setPathD d (h' :: t) v ov) k = lookupD d k := by
  match t with
  | [] =>
    simp only [setPathD]
    cases lookupD d h' with
    | none => exact lookupD_setKey_ne d h' k v hne
    | some old =>
      by_cases hov : (ov || isEmptyVal old) = true
      · simp [hov]; exact lookupD_setKey_ne d h' k v hne
      · simp at hov; simp [hov]
  | k2 :: rest =>
    simp only [setPathD]
    cases lookupD d h' with
    | none => exact lookupD_setKey_ne d h' k _ hne
    | some old =>
      cases old with
      | dict sub => exact lookupD_setKey_ne d h' k _ hne
      | none => rfl
      | bool b => rfl
      | int n => rfl
      | float q' => rfl
      | str s => rfl
      | list xs => rfl

theorem secinv_setPathD (em : Em) (sec leaf : String) (L : Option PyVal)
    (q : List String) (v : PyVal) (ov : Bool)
    (hq : okPath sec leaf q = true) (hinv : SecInv em sec leaf L) :
    SecInv (setPathD em q v ov) sec leaf L := by
  match q with
  | [] => exact hinv
  | [k] =>
    simp [okPath] at hq
    have hl := lookupD_setPathD_head_ne em k [] v ov sec hq
    rcases hinv with ⟨h1, h2⟩ | ⟨sub, h1, h2⟩
    · exact Or.inl ⟨hl.trans h1, h2⟩
    · exact Or.inr ⟨sub, hl.trans h1, h2⟩
  | k :: l :: rest =>
    by_cases hk : k = sec
    · subst hk
      simp [okPath] at hq
      have hleaf : l ≠ leaf := hq
      simp only [setPathD]
      rcases hinv with ⟨h1, h2⟩ | ⟨sub, h1, h2⟩
      · rw [h1]
        subst h2
        refine Or.inr ⟨setPathD [] (l :: rest) v ov, lookupD_setKey_self em k _, ?_⟩
        rw [lookupD_setPathD_head_ne [] l rest v ov leaf hleaf]
        rfl
      · rw [h1]
        refine Or.inr ⟨setPathD sub (l :: rest) v ov, lookupD_setKey_self em k _, ?_⟩
        rw [lookupD_setPathD_head_ne sub l rest v ov leaf hleaf]
        exact h2
    · have hl := lookupD_setPathD_head_ne em k (l :: rest) v ov sec hk
      rcases hinv with ⟨h1, h2⟩ | ⟨sub, h1, h2⟩
      · exact Or.inl ⟨hl.trans h1, h2⟩
      · exact Or.inr ⟨sub, hl.trans h1, h2⟩

theorem secinv_applyRule (em : Em) (r : MappingElements) (sec leaf : String)
    (L : Option PyVal) (hq : okPath sec leaf r.dest_path = true)
    (hinv : SecInv em sec leaf L) : SecInv (applyRule em r) sec leaf L := by
  unfold applyRule
  cases hg : pyGet r.source_dict r.source_path with
  | none => exact hinv
  | some v =>
    cases hc : applyCast r.cast_fn v with
    | none => simpa [hc] using hinv
    | some cv =>
      cases hv : applyConv r.conv_fn cv with
      | none => simpa [hc, hv] using hinv
      | some fv =>
        simp only [hc, hv]
        exact secinv_setPathD em sec leaf L r.dest_path _ r.override hq hinv

theorem secinv_applyRules (rs : List MappingElements) (em : Em)
    (sec leaf : String) (L : Option PyVal)
    (h : rs.all (fun r => okPath sec leaf r.dest_path) = true)
    (hinv : SecInv em sec leaf L) : SecInv (applyRules rs em) sec leaf L := by
  induction rs generalizing em with
  | nil => exact hinv
  | cons r rest ih =>
    rw [List.all_cons, Bool.and_eq_true] at h
    exact ih (applyRule em r) h.2 (secinv_applyRule em r sec leaf L h.1 hinv)

theorem secinv_write_true (em : Em) (sec leaf : String) (L : Option PyVal)
    (v : PyVal) (hinv : SecInv em sec leaf L) :
    SecInv (setPathD em [sec, leaf] v true) sec leaf (some v) := by
  simp only [setPathD]
  rcases hinv with ⟨h1, _⟩ | ⟨sub, h1, h2⟩
  · rw [h1]
    refine Or.inr ⟨setPathD [] [leaf] v true, lookupD_setKey_self em sec _, ?_⟩
    simp [setPathD, lookupD, lookupD_setKey_self]
  · rw [h1]
    refine Or.inr ⟨setPathD sub [leaf] v true, lookupD_setKey_self em sec _, ?_⟩
    simp only [setPathD]
    cases lookupD sub leaf with
    | none => exact lookupD_setKey_self sub leaf v
    | some old => simp [lookupD_setKey_self]

theorem secinv_write_absent (em : Em) (sec leaf : String) (v : PyVal)
    (ov : Bool) (hinv : SecInv em sec leaf Option.none) :
    SecInv (setPathD em [sec, leaf] v ov) sec leaf (some v) := by
  simp only [setPathD]
  rcases hinv with ⟨h1, _⟩ | ⟨sub, h1, h2⟩
  · rw [h1]
    refine Or.inr ⟨setPathD [] [leaf] v ov, lookupD_setKey_self em sec _, ?_⟩
    simp [setPathD, lookupD, lookupD_setKey_self]
  · rw [h1]
    refine Or.inr ⟨setPathD sub [leaf] v ov, lookupD_setKey_self em sec _, ?_⟩
    simp only [setPathD, h2]
    exact lookupD_setKey_self sub leaf v

theorem secinv_getPath (em : Em) (sec leaf : String) (w : PyVal)
    (hinv : SecInv em sec leaf (some w)) :
    getPathD (.dict em) [sec, leaf] = some w := by
  rcases hinv with ⟨_, h2⟩ | ⟨sub, h1, h2⟩
  · exact absurd h2 (by simp)
  · simp [getPathD, h1, h2]

/-! ## Pruning lemmas and claims C9 / C5 -/

theorem noEmptyDeep_isEmptyVal (v : PyVal) (h : noEmptyDeep v = true) :
    isEmptyVal v = false := by
  cases v with
  | none => simp [noEmptyDeep] at h
  | list xs => cases xs <;> simp_all [noEmptyDeep, isEmptyVal]
  | dict kvs => cases kvs <;> simp_all [noEmptyDeep, isEmptyVal]
  | _ => rfl

theorem pruneTop_of_noEmptyEntries (x : Em) (h : noEmptyEntries x = true) :
    pruneTop x = x := by
  induction x with
  | nil => rfl
  | cons kv rest ih =>
    rw [noEmptyEntries, Bool.and_eq_true] at h
    simp [pruneTop, List.filter, noEmptyDeep_isEmptyVal kv.2 h.1]
    simpa [pruneTop] using ih h.2

/-- C9: the pruning performed by `_parse_file` is idempotent, and a tree
containing no empty values is left unchanged by it. -/
theorem c9_prune_idempotent :
    (∀ x : Em, pruneTop (pruneTop x) = pruneTop x) ∧
    (∀ x : Em, noEmptyDeep (.dict x) = true → pruneTop x = x) := by
  constructor
  · intro x
    induction x with
    | nil => rfl
    | cons kv rest ih =>
      by_cases he : isEmptyVal kv.2
      · simp [pruneTop, List.filter, he]
      · simp [pruneTop, List.filter, he]
  · intro x h
    rw [noEmptyDeep] at h
    cases x with
    | nil => rfl
    | cons kv rest =>
      rw [Bool.and_eq_true] at h
      exact pruneTop_of_noEmptyEntries _ h.2

/-- Witness for C9 at a concrete tree without empty values. -/
theorem c9_prune_idempotent_witness :
    noEmptyDeep (.dict [("General_EM", .dict [("a", .int 1)])]) = true ∧
    pruneTop [("General_EM", .dict [("a", .int 1)])]
      = [("General_EM", .dict [("a", .int 1)])] :=
  ⟨rfl, c9_prune_idempotent.2 [("General_EM", .dict [("a", .int 1)])] rfl⟩

/-- C5 counterexample: a tree whose `TEM` section contains an empty mapping
strictly below the top level is returned unchanged by the final pruning —
the nested empty value is not removed, and the container holding it is not
removed either. -/
theorem c5_counterexample :
    pruneTop [("TEM", .dict [("a", .dict [])])]
      = [("TEM", .dict [("a", .dict [])])] ∧
    isEmptyVal (PyVal.dict []) = true :=
  ⟨rfl, rfl⟩

/-- C5 (amended): the final pruning removes exactly the top-level entries of
the `electron_microscopy` mapping whose value is `None`, an empty sequence,
or an empty mapping; every other entry — including any empty value nested
deeper in the tree — is kept unchanged. -/
theorem c5_prune_top_level_amended (l : Em) (k : String) (v : PyVal) :
    (k, v) ∈ pruneTop l ↔ (k, v) ∈ l ∧ isEmptyVal v = false := by
  simp [pruneTop, List.mem_filter]

/-- Witness for C5 (amended) at a concrete entry. -/
theorem c5_prune_witness :
    ("a", PyVal.int 1) ∈ pruneTop [("a", PyVal.int 1)] :=
  (c5_prune_top_level_amended [("a", PyVal.int 1)] "a" (.int 1)).mpr
    ⟨by simp, rfl⟩

/-! ## Image-shape lemmas and claims C8 / C10 -/

theorem parse_file_ok_shape (meta raw rec : Em)
    (h : parse_file meta raw = .ok rec) :
    ∃ em1 em4, process_hs_data meta (emInit raw) = .ok em1 ∧
      dm3_tecnai_info raw (dm3_eels_info raw (dm3_general_info raw em1)) = .ok em4 ∧
      rec = assembleRecord (pruneTop (directWrites raw (dm3_eds_info raw em4)))
        (imageShape raw) := by
  simp only [parse_file] at h
  obtain ⟨em1, h1, h⟩ := (exBind_ok _ _ _).mp h
  obtain ⟨em4, h4, h⟩ := (exBind_ok _ _ _).mp h
  refine ⟨em1, em4, h1, h4, ?_⟩
  simpa [pure, Except.pure] using h.symm

/-- C8: with at least two integer-cast axes the derived shape is the input
with its first two axes swapped; a single axis passes through; when the
dimension tag is absent (or unreadable) no shape is derived, and the record
then carries no `image` key at all. -/
theorem c8_shape_reorder :
    (∀ raw b0 b1 rest, dimsInts raw = some (b0 :: b1 :: rest) →
        imageShape raw = some (b1 :: b0 :: rest)) ∧
    (∀ raw b, dimsInts raw = some [b] → imageShape raw = some [b]) ∧
    (∀ raw, dimsValues raw = Option.none → imageShape raw = Option.none) ∧
    (∀ meta raw rec, parse_file meta raw = .ok rec →
        imageShape raw = Option.none → lookupD rec "image" = Option.none) := by
  refine ⟨?_, ?_, ?_, ?_⟩
  · intro raw b0 b1 rest h
    simp [imageShape, h, reorderShape]
  · intro raw b h
    simp [imageShape, h, reorderShape]
  · intro raw h
    simp [imageShape, dimsInts, h]
  · intro meta raw rec h himg
    obtain ⟨em1, em4, _, _, hrec⟩ := parse_file_ok_shape meta raw rec h
    subst hrec
    rw [himg]
    by_cases he : (pruneTop (directWrites raw (dm3_eds_info raw em4))).isEmpty <;>
      simp [assembleRecord, he, lookupD]

/-- Witness for C8 at the spec's own example dimensions. -/
theorem c8_shape_reorder_witness :
    dimsInts rawDims2 = some [10, 20] ∧ imageShape rawDims2 = some [20, 10] :=
  ⟨rfl, c8_shape_reorder.1 rawDims2 10 20 [] rfl⟩

/-- C10: shape derivation is atomic — either no `shape` fact is produced, or
the produced shape is exactly the reorder of the fully integer-cast
dimension list (never a partial or non-integer list); a failing cast of any
entry yields no shape fact, with the exception absorbed inside the image
block. -/
theorem c10_shape_atomic :
    (∀ raw, imageShape raw = Option.none ∨
       ∃ ds, dimsInts raw = some ds ∧ imageShape raw = some (reorderShape ds) ∧
         reorderShape ds ≠ []) ∧
    (∀ raw vs, dimsValues raw = some vs → castAllInt vs = Option.none →
       imageShape raw = Option.none) := by
  constructor
  · intro raw
    cases h : dimsInts raw with
    | none => exact Or.inl (by simp [imageShape, h])
    | some ds =>
      by_cases he : (reorderShape ds).isEmpty
      · exact Or.inl (by simp [imageShape, h, he])
      · refine Or.inr ⟨ds, rfl, by simp [imageShape, h, he], ?_⟩
        simpa [List.isEmpty_iff] using he
  · intro raw vs hv hc
    simp [imageShape, dimsInts, hv, hc]

/-- Witness for C10 at a dimension list with a non-castable entry. -/
theorem c10_shape_atomic_witness :
    dimsValues rawDimsBad = some [.int 10, .str "abc"] ∧
    castAllInt [.int 10, .str "abc"] = Option.none ∧
    imageShape rawDimsBad = Option.none :=
  ⟨rfl, rfl, c10_shape_atomic.2 rawDimsBad [.int 10, .str "abc"] rfl rfl⟩

/-! ## Write-once lemmas and claim C4 -/

theorem setPathD_skip (d : Em) (p : List String) (w v : PyVal)
    (hw : getPathD (.dict d) p = some w) (hne : isEmptyVal w = false) :
    setPathD d p v false = d := by
  induction p generalizing d w with
  | nil => rfl
  | cons k t ih =>
    cases t with
    | nil =>
      simp only [getPathD] at hw
      cases hl : lookupD d k with
      | none => simp [hl] at hw
      | some u =>
        simp [hl, getPathD] at hw
        subst hw
        simp [setPathD, hl, hne]
    | cons k2 rest =>
      simp only [getPathD] at hw
      cases hl : lookupD d k with
      | none => simp [hl] at hw
      | some u =>
        simp only [hl] at hw
        cases u with
        | dict sub =>
          simp only [setPathD, hl]
          rw [ih sub w hw hne]
          rw [setKey_self d k (.dict sub) hl]
        | none => simp [getPathD] at hw
        | bool b => simp [getPathD] at hw
        | int n => simp [getPathD] at hw
        | float q => simp [getPathD] at hw
        | str s' => simp [getPathD] at hw
        | list xs => simp [getPathD] at hw

theorem applyRule_write_once (em : Em) (r : MappingElements) (p : List String)
    (w : PyVal) (hw : getPathD (.dict em) p = some w)
    (hne : isEmptyVal w = false) (hd : r.dest_path = p)
    (hov : r.override = false) : applyRule em r = em := by
  unfold applyRule
  cases hg : pyGet r.source_dict r.source_path with
  | none => rfl
  | some v =>
    cases hc : applyCast r.cast_fn v with
    | none => simp [hc]
    | some cv =>
      cases hv : applyConv r.conv_fn cv with
      | none => simp [hc, hv]
      | some fv =>
        simp only [hc, hv, hd, hov]
        exact setPathD_skip em p w _ hw hne

/-- C4: once a destination path holds a non-empty value, applying any list of
rules that all target that same path with `override = false` leaves the
destination tree entirely unchanged — the first successfully written value is
retained regardless of later rule values. -/
theorem c4_first_writer_wins (em : Em) (p : List String) (w : PyVal)
    (rules : List MappingElements)
    (hw : getPathD (.dict em) p = some w) (hne : isEmptyVal w = false)
    (hrules : rules.all (fun r => decide (r.dest_path = p) && !r.override) = true) :
    applyRules rules em = em := by
  induction rules with
  | nil => rfl
  | cons r rest ih =>
    rw [List.all_cons, Bool.and_eq_true] at hrules
    obtain ⟨hr, hrest⟩ := hrules
    rw [Bool.and_eq_true, decide_eq_true_eq, Bool.not_eq_true'] at hr
    simp only [applyRules, List.foldl_cons]
    rw [applyRule_write_once em r p w hw hne hr.1 hr.2]
    exact ih hrest

/-- Witness for C4: after the first `exposure_time` rule of
`_dm3_general_info`'s miscellaneous block has written 0.5 s, the alternative
`DataBar` exposure rule (override = false, same destination, source value
99.0) leaves the tree unchanged. -/
theorem c4_first_writer_wins_witness :
    getPathD (.dict c4emW) ["General_EM", "exposure_time"]
      = some (.dict [("value", .float (mkRat 1 2)), ("unit", .str "SEC")]) ∧
    applyRules c4rule2 c4emW = c4emW :=
  ⟨rfl,
   c4_first_writer_wins c4emW ["General_EM", "exposure_time"]
     (.dict [("value", .float (mkRat 1 2)), ("unit", .str "SEC")])
     c4rule2 rfl rfl rfl⟩

/-! ## Claims C2 and C3 (behaviour of the code at concrete inputs) -/

/-- C2: with the Tecnai block present but its `Extr volt ` line absent,
`__find_val` returns `None`, `__extract_val` passes it to `re.search`, and
the resulting `TypeError` escapes `_parse_file` — the whole record is
aborted instead of the field being omitted. -/
theorem c2_missing_line_raises :
    parse_file [] rawNoExtr = Except.error PyErr.typeError := rfl

/-- C3: on raw metadata carrying a DigitalMicrograph `Operation Mode` tag,
the returned `electron_microscopy` mapping has a top-level `operation_mode`
key (written by the direct `self.em["operation_mode"] = ...` assignment of
`_parse_file`), in addition to the `TEM.operation_mode` leaf — so the
top-level keys are not limited to the seven section names. -/
theorem c3_top_level_leak :
    parse_file [] rawOpMode = Except.ok
      [("electron_microscopy", .dict
        [("raw_metadata", .dict rawOpMode),
         ("General_EM", .dict
           [("acquisition_software_name", .str "DigitalMicrograph")]),
         ("TEM", .dict [("operation_mode", .str "SAMAG")]),
         ("operation_mode", .str "SAMAG")])] ∧
    lookupD
      [("raw_metadata", .dict rawOpMode),
       ("General_EM", .dict
         [("acquisition_software_name", .str "DigitalMicrograph")]),
       ("TEM", .dict [("operation_mode", .str "SAMAG")]),
       ("operation_mode", .str "SAMAG")] "operation_mode"
      = some (.str "SAMAG") ∧
    ("operation_mode" ∈
      ["General", "General_EM", "TEM", "SEM", "EDS", "EELS", "raw_metadata"])
      = False := by
  refine ⟨rfl, rfl, by simp⟩

/-! ## Claim C6 (accelerating voltage unit choice) -/

theorem applyRules_append (xs ys : List MappingElements) (em : Em) :
    applyRules (xs ++ ys) em = applyRules ys (applyRules xs em) :=
  List.foldl_append ..

theorem dm3_general_info_eq (raw em : Em) :
    dm3_general_info raw em =
      applyRules
        (dm3MicroscopeInfoRules raw (dm3TagPrePath raw ++ ["Microscope Info"]) ++
         dm3VoltageRules raw (dm3TagPrePath raw ++ ["Microscope Info"]) ++
         dm3SessionRules raw (dm3TagPrePath raw ++ ["Session Info"]) ++
         dm3MetaDataRules raw (dm3TagPrePath raw ++ ["Meta Data"]) ++
         dm3MiscRules raw (dm3TagPrePath raw))
        (if (pyGet (.dict raw) ["ImageList", "TagGroup0", "ImageTags"]).isSome then
           setPathD em ["General_EM", "acquisition_software_name"]
             (.str "DigitalMicrograph") false
         else em) := rfl

theorem mkRat_div1000 (v : ℚ) : mkRat v.num (v.den * 1000) = v / 1000 := by
  rw [Rat.mkRat_eq_div]
  push_cast
  rw [div_mul_eq_div_div, Rat.num_div_den]

/-- C6: when the DigitalMicrograph `Voltage` tag is present and float-castable
with value `v`, `_dm3_general_info` writes `General_EM.accelerating_voltage`;
for `v ≥ 1000` the written value is `v / 1000` with unit `KiloEV`, for
`v < 1000` the value is passed through unchanged with unit `EV`. -/
theorem c6_accelerating_voltage_unit (raw em sub : Em) (v : ℚ)
    (hv : (pyGet (.dict raw)
        ((dm3TagPrePath raw ++ ["Microscope Info"]) ++ ["Voltage"])).bind pyFloat
        = some v)
    (hsub : lookupD em "General_EM" = some (.dict sub))
    (habs : lookupD sub "accelerating_voltage" = Option.none) :
    getPathD (.dict (dm3_general_info raw em))
        ["General_EM", "accelerating_voltage"]
      = some (.dict
          [("value", .float (if ratGe v 1000 then v / 1000 else v)),
           ("unit", .str (if ratGe v 1000 then "KiloEV" else "EV"))]) := by
  rw [dm3_general_info_eq]
  rw [applyRules_append, applyRules_append, applyRules_append, applyRules_append]
  obtain ⟨val, hval, hfv⟩ := Option.bind_eq_some.mp hv
  have hinv0 : SecInv em "General_EM" "accelerating_voltage" Option.none :=
    Or.inr ⟨sub, hsub, habs⟩
  set em1 := (if (pyGet (.dict raw) ["ImageList", "TagGroup0", "ImageTags"]).isSome then
      setPathD em ["General_EM", "acquisition_software_name"]
        (.str "DigitalMicrograph") false
    else em) with hem1
  have hinv1 : SecInv em1 "General_EM" "accelerating_voltage" Option.none := by
    rw [hem1]
    by_cases hc : (pyGet (.dict raw) ["ImageList", "TagGroup0", "ImageTags"]).isSome
    · simp only [hc, if_true]
      exact secinv_setPathD em "General_EM" "accelerating_voltage" Option.none _ _ _ rfl hinv0
    · simp only [hc, if_false]
      exact hinv0
  set emA := applyRules
      (dm3MicroscopeInfoRules raw (dm3TagPrePath raw ++ ["Microscope Info"])) em1
    with hemA
  have hinvA : SecInv emA "General_EM" "accelerating_voltage" Option.none := by
    rw [hemA]
    exact secinv_applyRules _ em1 _ _ _ rfl hinv1
  have hrules : dm3VoltageRules raw (dm3TagPrePath raw ++ ["Microscope Info"]) =
      [ { source_dict := .dict raw,
          source_path := (dm3TagPrePath raw ++ ["Microscope Info"]) ++ ["Voltage"],
          dest_path := ["General_EM", "accelerating_voltage"],
          cast_fn := .toFloat,
          units := some (if ratGe v 1000 then "KiloEV" else "EV"),
          conv_fn := some (if ratGe v 1000 then ConvFn.div1000 else ConvFn.idConv),
          override := false } ] := by
    unfold dm3VoltageRules
    rw [hv]
  rw [hrules]
  set w := PyVal.dict
      [("value", .float (if ratGe v 1000 then v / 1000 else v)),
       ("unit", .str (if ratGe v 1000 then "KiloEV" else "EV"))] with hw
  have hwrite : SecInv (applyRules
      [ { source_dict := .dict raw,
          source_path := (dm3TagPrePath raw ++ ["Microscope Info"]) ++ ["Voltage"],
          dest_path := ["General_EM", "accelerating_voltage"],
          cast_fn := .toFloat,
          units := some (if ratGe v 1000 then "KiloEV" else "EV"),
          conv_fn := some (if ratGe v 1000 then ConvFn.div1000 else ConvFn.idConv),
          override := false } ] emA) "General_EM" "accelerating_voltage" (some w) := by
    simp only [applyRules, List.foldl_cons, List.foldl_nil]
    unfold applyRule
    simp only [hval, hfv, applyCast, Option.map_some]
    by_cases hge : ratGe v 1000
    · simp only [hge, if_true, applyConv, applyConvFn, mkRat_div1000, hw, wrapUnit]
      exact secinv_write_absent emA _ _ _ _ hinvA
    · simp only [hge, if_false, applyConv, applyConvFn, hw, wrapUnit]
      exact secinv_write_absent emA _ _ _ _ hinvA
  have hinvB := secinv_applyRules
      (dm3SessionRules raw (dm3TagPrePath raw ++ ["Session Info"])) _
      "General_EM" "accelerating_voltage" _ rfl hwrite
  have hinvC := secinv_applyRules
      (dm3MetaDataRules raw (dm3TagPrePath raw ++ ["Meta Data"])) _
      "General_EM" "accelerating_voltage" _ rfl hinvB
  have hinvD := secinv_applyRules (dm3MiscRules raw (dm3TagPrePath raw)) _
      "General_EM" "accelerating_voltage" _ rfl hinvC
  exact secinv_getPath _ _ _ _ hinvD

/-- Witness for C6: a 200000 V tag is rescaled to 200 with unit `KiloEV`. -/
theorem c6_accelerating_voltage_witness :
    (pyGet (.dict rawVolt)
        ((dm3TagPrePath rawVolt ++ ["Microscope Info"]) ++ ["Voltage"])).bind pyFloat
      = some 200000 ∧
    getPathD (.dict (dm3_general_info rawVolt (emInit rawVolt)))
        ["General_EM", "accelerating_voltage"]
      = some (.dict
          [("value", .float (if ratGe (200000 : ℚ) 1000
              then (200000 : ℚ) / 1000 else 200000)),
           ("unit", .str (if ratGe (200000 : ℚ) 1000 then "KiloEV" else "EV"))]) :=
  ⟨rfl, c6_accelerating_voltage_unit rawVolt (emInit rawVolt) [] 200000 rfl rfl rfl⟩

/-! ## Claim C7 (defocus pattern precedence) -/

theorem tecnaiBaseRules_eq (micName extr emis opMode df1 df2 magn cl spot :
    Option String) :
    tecnaiBaseRules micName extr emis opMode df1 df2 magn cl spot =
      tecnaiPre4 micName extr emis opMode ++
      [tecnaiDefocusRule df1, tecnaiDefocusRule df2] ++
      tecnaiPost3 magn cl spot := rfl

theorem tecnaiRules_ok (lines : List String) (rs : List MappingElements)
    (h : tecnaiRules lines = .ok rs) :
    ∃ extr emis opMode df1 df2 magn cl sr fr,
      extractVal reDefocusUm (findVal "Mode " lines) = .ok df1 ∧
      extractVal reDefocusCL (findVal "Mode " lines) = .ok df2 ∧
      rs = tecnaiBaseRules (findVal "Microscope " lines) extr emis opMode df1 df2
             magn cl (findVal "Spot " lines) ++ sr ++ fr ∧
      (sr = [] ∨ ∃ x y z a b, sr = tecnaiStageRules x y z a b) ∧
      (fr = [] ∨ ∃ m di ap pr dr tl, fr = tecnaiFilterRules m di ap pr dr tl) := by
  simp only [tecnaiRules] at h
  obtain ⟨extr, h1, h⟩ := (exBind_ok _ _ _).mp h
  obtain ⟨emis, h2, h⟩ := (exBind_ok _ _ _).mp h
  obtain ⟨opM, h3, h⟩ := (exBind_ok _ _ _).mp h
  obtain ⟨df1, h4, h⟩ := (exBind_ok _ _ _).mp h
  obtain ⟨df2, h5, h⟩ := (exBind_ok _ _ _).mp h
  obtain ⟨magn, h6, h⟩ := (exBind_ok _ _ _).mp h
  obtain ⟨cl, h7, h⟩ := (exBind_ok _ _ _).mp h
  obtain ⟨sr, h8, h⟩ := (exBind_ok _ _ _).mp h
  obtain ⟨fr, h9, h⟩ := (exBind_ok _ _ _).mp h
  refine ⟨extr, emis, opM, df1, df2, magn, cl, sr, fr, h4, h5,
    by simpa [pure, Except.pure] using h.symm, ?_, ?_⟩
  · unfold tecnaiStageBlock at h8
    split at h8
    · split at h8
      · exact Or.inl (by simpa [pure, Except.pure] using h8.symm)
      · split at h8
        · exact Or.inr ⟨_, _, _, _, _, by simpa [pure, Except.pure] using h8.symm⟩
        · simp [pure, Except.pure] at h8
    · exact Or.inl (by simpa [pure, Except.pure] using h8.symm)
  · unfold tecnaiFilterBlock at h9
    split at h9
    · split at h9
      · exact Or.inl (by simpa [pure, Except.pure] using h9.symm)
      · obtain ⟨di, hd1, h9⟩ := (exBind_ok _ _ _).mp h9
        obtain ⟨ap, hd2, h9⟩ := (exBind_ok _ _ _).mp h9
        obtain ⟨pr, hd3, h9⟩ := (exBind_ok _ _ _).mp h9
        obtain ⟨dr, hd4, h9⟩ := (exBind_ok _ _ _).mp h9
        obtain ⟨tl, hd5, h9⟩ := (exBind_ok _ _ _).mp h9
        exact Or.inr ⟨_, di, ap, pr, dr, tl,
          by simpa [pure, Except.pure] using h9.symm⟩
    · exact Or.inl (by simpa [pure, Except.pure] using h9.symm)

theorem defocus_rule_writes (em : Em) (df : Option String) (L : Option PyVal)
    (d : String) (v : ℚ) (hd : df = some d) (hv : pyFloatOfString d = some v)
    (hinv : SecInv em "TEM" "defocus" L) :
    SecInv (applyRule em (tecnaiDefocusRule df)) "TEM" "defocus"
      (some (.dict [("value", .float v), ("unit", .str "MicroM")])) := by
  subst hd
  have heq : applyRule em (tecnaiDefocusRule (some d)) =
      match (pyFloatOfString d).map PyVal.float with
      | Option.none => em
      | some cv =>
        match applyConv Option.none cv with
        | Option.none => em
        | some fv =>
          setPathD em ["TEM", "defocus"] (wrapUnit fv (some "MicroM")) true := rfl
  rw [heq, hv]
  exact secinv_write_true em "TEM" "defocus" L _ hinv

theorem defocus_rule_skips (em : Em) (df : Option String)
    (h : df = Option.none ∨ ∃ d, df = some d ∧ pyFloatOfString d = Option.none) :
    applyRule em (tecnaiDefocusRule df) = em := by
  rcases h with rfl | ⟨d, rfl, hc⟩
  · rfl
  · unfold applyRule tecnaiDefocusRule
    simp [pyGet, getPathD, lookupD, strOptVal, applyCast, pyFloat, hc]

/-- C7 counterexample: on a `Mode ` line matched by both defocus patterns
(imaging-mode capture `1.2`, diffraction-mode capture `3.4`), the Tecnai
stage leaves `TEM.defocus` holding the SECOND pattern's value 3.4 — not the
first successful match, whose value 1.2 is overwritten because both rules
carry `override=True`. -/
theorem c7_counterexample :
    findVal "Mode " (pySplit tecnaiBothDefocus tecnaiDelim) = some modeLineBoth ∧
    reDefocusUm modeLineBoth = some "1.2" ∧
    pyFloatOfString "1.2" = some (mkRat 6 5) ∧
    reDefocusCL modeLineBoth = some "3.4" ∧
    dm3_tecnai_info rawBothDefocus (emInit rawBothDefocus) = .ok c7emResult ∧
    getPathD (.dict c7emResult) ["TEM", "defocus"]
      = some (.dict [("value", .float (mkRat 17 5)), ("unit", .str "MicroM")]) ∧
    mkRat 17 5 ≠ mkRat 6 5 :=
  ⟨rfl, rfl, rfl, rfl, rfl, rfl, by decide⟩

/-- C7 (amended): the two defocus patterns are tried in order, but both
rules carry `override=True`, so the LAST successful pattern wins:
whenever the diffraction-mode pattern (`Defocus ([\d|\.]*) CL`) matches with
a float-castable capture, its value is the one retained — even if the
imaging-mode pattern also matched; the imaging-mode value is retained only
when the diffraction-mode pattern does not match. -/
theorem c7_defocus_amended (raw em : Em) (s modeLine : String) (em' : Em)
    (hs : pyGet (.dict raw) tecnaiPath = some (.str s))
    (hmode : findVal "Mode " (pySplit s tecnaiDelim) = some modeLine)
    (htem : lookupD em "TEM" = Option.none ∨ ∃ t, lookupD em "TEM" = some (.dict t))
    (hok : dm3_tecnai_info raw em = .ok em') :
    (∀ d2 v2, reDefocusCL modeLine = some d2 → pyFloatOfString d2 = some v2 →
        getPathD (.dict em') ["TEM", "defocus"]
          = some (.dict [("value", .float v2), ("unit", .str "MicroM")])) ∧
    (∀ d1 v1, reDefocusCL modeLine = Option.none → reDefocusUm modeLine = some d1 →
        pyFloatOfString d1 = some v1 →
        getPathD (.dict em') ["TEM", "defocus"]
          = some (.dict [("value", .float v1), ("unit", .str "MicroM")])) := by
  unfold dm3_tecnai_info at hok
  rw [hs] at hok
  obtain ⟨rules, hr, hpure⟩ := (exBind_ok _ _ _).mp hok
  have hem' : em' = applyRules rules em := by
    simpa [pure, Except.pure] using hpure.symm
  obtain ⟨extr, emis, opM, df1, df2, magn, cl, sr, fr, hdf1, hdf2, hrs, hsr, hfr⟩ :=
    tecnaiRules_ok _ rules hr
  rw [hmode] at hdf1 hdf2
  simp only [extractVal, Except.ok.injEq] at hdf1 hdf2
  -- initial invariant
  have hinv0 : ∃ L, SecInv em "TEM" "defocus" L := by
    rcases htem with hn | ⟨t, ht⟩
    · exact ⟨Option.none, Or.inl ⟨hn, rfl⟩⟩
    · exact ⟨lookupD t "defocus", Or.inr ⟨t, ht, rfl⟩⟩
  obtain ⟨L0, hinv0⟩ := hinv0
  have hsr_ok : sr.all (fun r => okPath "TEM" "defocus" r.dest_path) = true := by
    rcases hsr with rfl | ⟨x, y, z, a, b, rfl⟩ <;> rfl
  have hfr_ok : fr.all (fun r => okPath "TEM" "defocus" r.dest_path) = true := by
    rcases hfr with rfl | ⟨m, di, ap, pr, dr, tl, rfl⟩ <;> rfl
  subst hem' hrs
  rw [tecnaiBaseRules_eq]
  constructor
  · -- diffraction-mode pattern matched: its value wins
    intro d2 v2 hcl hv2
    rw [← hdf2, hcl] at *
    rw [applyRules_append, applyRules_append, applyRules_append,
        applyRules_append]
    have hA : SecInv (applyRules (tecnaiPre4 (findVal "Microscope "
        (pySplit s tecnaiDelim)) extr emis opM) em) "TEM" "defocus" L0 :=
      secinv_applyRules _ em _ _ _ rfl hinv0
    -- rule 5 either writes or skips; either way SecInv holds for some L
    have h5 : ∃ L5, SecInv (applyRules [tecnaiDefocusRule df1, tecnaiDefocusRule (some d2)]
        (applyRules (tecnaiPre4 (findVal "Microscope " (pySplit s tecnaiDelim))
          extr emis opM) em)) "TEM" "defocus" L5 ∧
        L5 = some (.dict [("value", .float v2), ("unit", .str "MicroM")]) := by
      simp only [applyRules, List.foldl_cons, List.foldl_nil]
      have h5a : ∃ La, SecInv (applyRule (applyRules (tecnaiPre4
          (findVal "Microscope " (pySplit s tecnaiDelim)) extr emis opM) em)
          (tecnaiDefocusRule df1)) "TEM" "defocus" La := by
        cases hdf1e : df1 with
        | none =>
          rw [defocus_rule_skips _ _ (Or.inl rfl)]
          exact ⟨L0, hA⟩
        | some d1 =>
          cases hv1 : pyFloatOfString d1 with
          | none =>
            rw [defocus_rule_skips _ _ (Or.inr ⟨d1, rfl, hv1⟩)]
            exact ⟨L0, hA⟩
          | some v1 =>
            exact ⟨_, defocus_rule_writes _ _ _ d1 v1 rfl hv1 hA⟩
      obtain ⟨La, h5a⟩ := h5a
      exact ⟨_, defocus_rule_writes _ _ _ d2 v2 rfl hv2 h5a, rfl⟩
    obtain ⟨L5, h5, rfl⟩ := h5
    have hB := secinv_applyRules (tecnaiPost3 magn cl (findVal "Spot "
        (pySplit s tecnaiDelim))) _ "TEM" "defocus" _ rfl h5
    have hC := secinv_applyRules sr _ "TEM" "defocus" _ hsr_ok hB
    have hD := secinv_applyRules fr _ "TEM" "defocus" _ hfr_ok hC
    exact secinv_getPath _ _ _ _ hD
  · -- diffraction-mode pattern absent: the imaging-mode value survives
    intro d1 v1 hcl hum hv1
    rw [← hdf2, hcl] at *
    rw [← hdf1, hum] at *
    rw [applyRules_append, applyRules_append, applyRules_append,
        applyRules_append]
    have hA : SecInv (applyRules (tecnaiPre4 (findVal "Microscope "
        (pySplit s tecnaiDelim)) extr emis opM) em) "TEM" "defocus" L0 :=
      secinv_applyRules _ em _ _ _ rfl hinv0
    have h5 : SecInv (applyRules [tecnaiDefocusRule (some d1),
        tecnaiDefocusRule Option.none]
        (applyRules (tecnaiPre4 (findVal "Microscope " (pySplit s tecnaiDelim))
          extr emis opM) em)) "TEM" "defocus"
        (some (.dict [("value", .float v1), ("unit", .str "MicroM")])) := by
      simp only [applyRules, List.foldl_cons, List.foldl_nil]
      rw [defocus_rule_skips _ _ (Or.inl rfl)]
      exact defocus_rule_writes _ _ _ d1 v1 rfl hv1 hA
    have hB := secinv_applyRules (tecnaiPost3 magn cl (findVal "Spot "
        (pySplit s tecnaiDelim))) _ "TEM" "defocus" _ rfl h5
    have hC := secinv_applyRules sr _ "TEM" "defocus" _ hsr_ok hB
    have hD := secinv_applyRules fr _ "TEM" "defocus" _ hfr_ok hC
    exact secinv_getPath _ _ _ _ hD

/-- Witness for C7 (amended) at the concrete both-patterns input. -/
theorem c7_defocus_witness :
    getPathD (.dict c7emResult) ["TEM", "defocus"]
      = some (.dict [("value", .float (mkRat 17 5)), ("unit", .str "MicroM")]) :=
  (c7_defocus_amended rawBothDefocus (emInit rawBothDefocus) tecnaiBothDefocus
      modeLineBoth c7emResult rfl rfl (Or.inr ⟨[], rfl⟩) rfl).1
    "3.4" (mkRat 17 5) rfl rfl

/-! ## Claim C1 (raw_metadata passthrough) -/

theorem dm3_eels_info_eq (raw em : Em) :
    dm3_eels_info raw em =
      applyRules
        (dm3EelsBaseRules raw (dm3TagPrePath raw ++ ["EELS"]) ++
         dm3EelsSpectRules raw
           (if (pyGet (.dict raw)
               (dm3TagPrePath raw ++ ["EELS", "Acquisition", "Spectrometer"])).isSome
            then dm3TagPrePath raw ++ ["EELS", "Acquisition", "Spectrometer"]
            else dm3TagPrePath raw ++ ["EELS Spectrometer"])) em := rfl

theorem dm3_eds_info_eq (raw em : Em) :
    dm3_eds_info raw em =
      applyRules (dm3EdsRules raw (dm3TagPrePath raw ++ ["EDS"])) em := rfl

theorem kE_process_hs (meta em em' : Em)
    (h : process_hs_data meta em = .ok em') :
    keyEntries "raw_metadata" em' = keyEntries "raw_metadata" em := by
  unfold process_hs_data at h
  obtain ⟨keys, hk, h⟩ := (exBind_ok _ _ _).mp h
  have hem' : em' =
      applyRules (hsGeneralRules (.dict meta))
        (match pyGet (.dict meta) ["Acquisition_instrument",
            if keys.contains "SEM" then "SEM"
            else if keys.contains "TEM" then "TEM" else "None"] with
         | some idata =>
            process_hs_detectors idata (applyRules (hsInstrumentRules idata) em)
         | Option.none => em) := by
    simpa [pure, Except.pure] using h.symm
  subst hem'
  rw [keyEntries_applyRules _ _ _ (by rfl)]
  cases pyGet (.dict meta) ["Acquisition_instrument",
      if keys.contains "SEM" then "SEM"
      else if keys.contains "TEM" then "TEM" else "None"] with
  | none => rfl
  | some idata =>
    unfold process_hs_detectors
    rw [keyEntries_applyRules _ _ _ ?hall]
    · exact keyEntries_applyRules _ _ _ (by rfl)
    case hall =>
      cases pyGet idata ["Detector"] with
      | none => rfl
      | some dn => rfl

theorem kE_dm3_general (raw em : Em) :
    keyEntries "raw_metadata" (dm3_general_info raw em)
      = keyEntries "raw_metadata" em := by
  rw [dm3_general_info_eq]
  rw [keyEntries_applyRules _ _ _ ?hall]
  · by_cases hc : (pyGet (.dict raw) ["ImageList", "TagGroup0", "ImageTags"]).isSome
    · simp only [hc, if_true]
      exact keyEntries_setPathD em _ _ _ _ rfl
    · simp [hc]
  case hall =>
    simp only [List.all_append, Bool.and_eq_true]
    refine ⟨⟨⟨⟨by rfl, ?_⟩, by rfl⟩, by rfl⟩, by rfl⟩
    unfold dm3VoltageRules
    cases (pyGet (.dict raw)
        ((dm3TagPrePath raw ++ ["Microscope Info"]) ++ ["Voltage"])).bind pyFloat with
    | none => rfl
    | some voltage => rfl

theorem kE_dm3_eels (raw em : Em) :
    keyEntries "raw_metadata" (dm3_eels_info raw em)
      = keyEntries "raw_metadata" em := by
  rw [dm3_eels_info_eq]
  exact keyEntries_applyRules _ _ _ (by rfl)

theorem kE_dm3_eds (raw em : Em) :
    keyEntries "raw_metadata" (dm3_eds_info raw em)
      = keyEntries "raw_metadata" em := by
  rw [dm3_eds_info_eq]
  exact keyEntries_applyRules _ _ _ (by rfl)

theorem kE_tecnai (raw em em' : Em)
    (h : dm3_tecnai_info raw em = .ok em') :
    keyEntries "raw_metadata" em' = keyEntries "raw_metadata" em := by
  unfold dm3_tecnai_info at h
  cases hg : pyGet (.dict raw) tecnaiPath with
  | none =>
    rw [hg] at h
    cases h
    rfl
  | some v =>
    rw [hg] at h
    cases v with
    | str s =>
      obtain ⟨rules, hr, hp⟩ := (exBind_ok _ _ _).mp h
      have hem' : em' = applyRules rules em := by
        simpa [pure, Except.pure] using hp.symm
      subst hem'
      obtain ⟨extr, emis, opM, df1, df2, magn, cl, sr, fr, _, _, hrs, hsr, hfr⟩ :=
        tecnaiRules_ok _ rules hr
      subst hrs
      rw [applyRules_append, applyRules_append]
      rw [keyEntries_applyRules _ _ _ ?hfr_ok,
          keyEntries_applyRules _ _ _ ?hsr_ok,
          keyEntries_applyRules _ _ _ (by rfl)]
      case hfr_ok =>
        rcases hfr with rfl | ⟨m, di, ap, pr, dr, tl, rfl⟩ <;> rfl
      case hsr_ok =>
        rcases hsr with rfl | ⟨x, y, z, a, b, rfl⟩ <;> rfl
    | none => cases h
    | bool b => cases h
    | int n => cases h
    | float q => cases h
    | list xs => cases h
    | dict kvs => cases h

theorem keyEntries_writeIfSome_ne (em : Em) (k k' : String)
    (ov : Option PyVal) (h : k' ≠ k) :
    keyEntries k (writeIfSome em k' ov) = keyEntries k em := by
  cases ov with
  | none => rfl
  | some v => exact keyEntries_setKey_ne em k k' v h

theorem kE_directWrites (raw em : Em) :
    keyEntries "raw_metadata" (directWrites raw em)
      = keyEntries "raw_metadata" em := by
  unfold directWrites
  rw [keyEntries_writeIfSome_ne _ _ _ _ (by decide),
      keyEntries_writeIfSome_ne _ _ _ _ (by decide),
      keyEntries_writeIfSome_ne _ _ _ _ (by decide),
      keyEntries_writeIfSome_ne _ _ _ _ (by decide)]

/-- C1 counterexample: the spec's end-to-end input — structured TEM metadata
with beam energy 200.0 and microscope `JEOL`, and EMPTY raw metadata —
produces a record whose `electron_microscopy` mapping has NO `raw_metadata`
key at all (the claim requires `"raw_metadata": {}`): the final pruning loop
pops the empty `raw_metadata` entry like any other empty value. -/
theorem c1_counterexample :
    parse_file exMeta [] = Except.ok
      [("electron_microscopy", .dict
        [("General_EM", .dict
          [("beam_energy", .dict [("value", .float 200), ("unit", .str "KiloEV")]),
           ("microscope_name", .str "JEOL")])])] ∧
    lookupD
      [("General_EM", .dict
        [("beam_energy", .dict [("value", .float 200), ("unit", .str "KiloEV")]),
         ("microscope_name", .str "JEOL")])] "raw_metadata" = Option.none :=
  ⟨rfl, rfl⟩

/-- C1 (amended): for every successfully parsed dataset, when the raw
metadata tree is NON-empty the returned `electron_microscopy` mapping holds
it unmodified under `raw_metadata`; when the raw metadata tree is empty the
`raw_metadata` key is removed by the final empty-value pruning, so the
output (if any) contains no `raw_metadata` key. -/
theorem c1_raw_metadata_amended (meta raw rec : Em)
    (h : parse_file meta raw = .ok rec) :
    (raw ≠ [] → ∃ em', lookupD rec "electron_microscopy" = some (.dict em') ∧
        lookupD em' "raw_metadata" = some (.dict raw)) ∧
    (raw = [] → ∀ em', lookupD rec "electron_microscopy" = some (.dict em') →
        lookupD em' "raw_metadata" = Option.none) := by
  obtain ⟨em1, em4, h1, h4, hrec⟩ := parse_file_ok_shape meta raw rec h
  have hkE : keyEntries "raw_metadata"
      (directWrites raw (dm3_eds_info raw em4)) = [("raw_metadata", .dict raw)] := by
    rw [kE_directWrites, kE_dm3_eds, kE_tecnai raw _ em4 h4, kE_dm3_eels,
        kE_dm3_general, kE_process_hs meta _ em1 h1]
    rfl
  set em6 := directWrites raw (dm3_eds_info raw em4) with hem6
  constructor
  · intro hraw
    have hne : isEmptyVal (.dict raw) = false := by
      cases raw with
      | nil => exact absurd rfl hraw
      | cons kv t => rfl
    have hkEp : keyEntries "raw_metadata" (pruneTop em6)
        = [("raw_metadata", .dict raw)] := by
      rw [keyEntries_pruneTop, hkE]
      simp [pruneTop, List.filter, hne]
    have hlook : lookupD (pruneTop em6) "raw_metadata" = some (.dict raw) := by
      rw [lookupD_eq_keyEntries_head, hkEp]
      rfl
    have hnonempty : (pruneTop em6).isEmpty = false := by
      cases hp : pruneTop em6 with
      | nil => rw [hp] at hkEp; simp [keyEntries] at hkEp
      | cons a t => rfl
    refine ⟨pruneTop em6, ?_, hlook⟩
    rw [hrec]
    simp [assembleRecord, hnonempty, lookupD]
  · intro hraw em' hem'
    subst hraw
    have hkEp : keyEntries "raw_metadata" (pruneTop em6) = [] := by
      rw [keyEntries_pruneTop, hkE]
      rfl
    have hlook : lookupD (pruneTop em6) "raw_metadata" = Option.none := by
      rw [lookupD_eq_keyEntries_head, hkEp]
      rfl
    rw [hrec] at hem'
    by_cases hp : (pruneTop em6).isEmpty
    · exfalso
      have himg : imageShape ([] : Em) = Option.none := rfl
      simp [assembleRecord, hp, himg, lookupD] at hem'
    · simp only [assembleRecord, hp, Bool.false_eq_true, if_false,
        List.cons_append, List.nil_append, lookupD, if_pos rfl] at hem'
      have hde : pruneTop em6 = em' := by
        have := hem'
        simp only [if_true, Option.some.injEq, PyVal.dict.injEq] at this
        exact this
      rw [← hde]
      exact hlook

/-- Witness for C1 (amended) on a non-empty raw tree: the parsed record holds
the whole raw tree unmodified under `raw_metadata`. -/
theorem c1_raw_metadata_witness :
    ∃ em', lookupD recC1W "electron_microscopy" = some (.dict em') ∧
      lookupD em' "raw_metadata" = some (.dict rawOpMode) :=
  (c1_raw_metadata_amended exMeta rawOpMode recC1W rfl).1 (by simp [rawOpMode])
